import Mathlib

/-!
Verification of the eCFR bulk XML ingestion and text-metrics pipeline.

The definitions below are a shallow embedding of the Python sources:
  backend/processors/bulk/downloader.py
  backend/processors/bulk/processor.py
  backend/processors/bulk/pipeline.py
  backend/processors/bulk_to_db.py
  backend/processors/analyzer.py
Pure functions are translated to Lean functions; file-system, network and
database effects are made explicit by passing state records.  Regular
expressions are compiled by hand to matchers with Python `re` semantics
(leftmost search, ordered alternation, greedy quantifiers with
backtracking) for the specific patterns the code uses.
-/

set_option maxRecDepth 4000

namespace ECFR

/-! ### Python string primitives -/

/-- Python whitespace (the ASCII part of `str.isspace` and the regex class
`\s`): space, tab, newline, carriage return, vertical tab, form feed. -/
def isPySpace (c : Char) : Bool :=
  c = ' ' || c = '\t' || c = '\n' || c = '\r' || c = '\x0b' || c = '\x0c'

/-- `str.strip()` on a character list. -/
def pyStripL (l : List Char) : List Char :=
  ((l.dropWhile isPySpace).reverse.dropWhile isPySpace).reverse

/-- `str.strip()`. -/
def pyStrip (s : String) : String := ⟨pyStripL s.data⟩

/-- Helper for `str.split()`: accumulate the current token while scanning. -/
def splitWsAux : List Char → List Char → List (List Char)
  | [], acc => if acc.isEmpty then [] else [acc.reverse]
  | c :: cs, acc =>
    if isPySpace c then
      if acc.isEmpty then splitWsAux cs [] else acc.reverse :: splitWsAux cs []
    else splitWsAux cs (c :: acc)

/-- `str.split()` with no argument: maximal runs of non-whitespace. -/
def pySplitWs (l : List Char) : List (List Char) := splitWsAux l []

/-- `len(s.split())`, the word count used by the bulk processor. -/
def pyWordCount (s : String) : Nat := (pySplitWs s.data).length

/-- `str.zfill(2)`. -/
def zfill2 (s : String) : String :=
  if s.data.length ≥ 2 then s else ⟨List.replicate (2 - s.data.length) '0' ++ s.data⟩

/-! ### `extract_date` (processor.py lines 22-82)

Each of the four regex patterns is compiled to a matcher that mirrors
Python `re.search`: try the pattern at every position from the left, at
each position try alternation branches in order, quantifiers greedy with
backtracking. -/

/-- Generic `re.search` driver: try `matchAt` on every suffix, leftmost
success wins. -/
def searchFrom {β : Type} (matchAt : List Char → Option β) : List Char → Option β
  | [] => none
  | c :: cs =>
    match matchAt (c :: cs) with
    | some r => some r
    | none => searchFrom matchAt cs

/-- Regex fragment `\d{1,2}` (greedy, with backtracking) directly followed
by a one-character separator accepted by `sep`; returns the digits and the
input after the separator. -/
def digits12Sep (sep : Char → Bool) : List Char → Option (List Char × List Char)
  | d1 :: d2 :: rest =>
    if d1.isDigit then
      if d2.isDigit then
        match rest with
        | c :: rest2 => if sep c then some ([d1, d2], rest2) else none
        | [] => none
      else if sep d2 then some ([d1], rest) else none
    else none
  | _ => none

/-- Regex fragment `\d{1,2}` (greedy) at the end of a pattern. -/
def digits12End : List Char → Option (List Char)
  | d1 :: d2 :: _ =>
    if d1.isDigit then some (if d2.isDigit then [d1, d2] else [d1]) else none
  | [d1] => if d1.isDigit then some [d1] else none
  | [] => none

/-- Regex fragment `(\d{4})` at the current position. -/
def year4 : List Char → Option (List Char)
  | y1 :: y2 :: y3 :: y4 :: _ =>
    if y1.isDigit && y2.isDigit && y3.isDigit && y4.isDigit then
      some [y1, y2, y3, y4]
    else none
  | _ => none

/-- Pattern `(\d{4}-\d{1,2}-\d{1,2})` tried at the current position;
returns the matched substring. -/
def pat1At : List Char → Option (List Char)
  | y1 :: y2 :: y3 :: y4 :: s :: rest =>
    if y1.isDigit && y2.isDigit && y3.isDigit && y4.isDigit && s = '-' then
      match digits12Sep (fun c => c = '-') rest with
      | some (m, rest2) =>
        match digits12End rest2 with
        | some d => some (y1 :: y2 :: y3 :: y4 :: '-' :: (m ++ '-' :: d))
        | none => none
      | none => none
    else none
  | _ => none

/-- Regex fragment `\s+(\d{4})`. -/
def spYear (cs : List Char) : Option (List Char) :=
  if (cs.takeWhile isPySpace).isEmpty then none
  else year4 (cs.dropWhile isPySpace)

/-- Regex fragment `,?\s+(\d{4})`: the optional comma is tried first
(greedy), falling back to the comma-less branch. -/
def commaSpYear (cs : List Char) : Option (List Char) :=
  match cs with
  | ',' :: rest =>
    match spYear rest with
    | some y => some y
    | none => spYear (',' :: rest)
  | _ => spYear cs

/-- Regex fragment `(\d{1,2}),?\s+(\d{4})`: greedy two-digit day with
backtracking to one digit. -/
def dayThenYear : List Char → Option (List Char × List Char)
  | d1 :: d2 :: rest =>
    if d1.isDigit then
      if d2.isDigit then
        match commaSpYear rest with
        | some y => some ([d1, d2], y)
        | none =>
          match commaSpYear (d2 :: rest) with
          | some y => some ([d1], y)
          | none => none
      else
        match commaSpYear (d2 :: rest) with
        | some y => some ([d1], y)
        | none => none
    else none
  | _ => none

/-- Month-name tables of `extract_date`, in the order the Python dicts and
membership lists give them. -/
def fullMonths : List (String × String) :=
  [("January", "01"), ("February", "02"), ("March", "03"), ("April", "04"),
   ("May", "05"), ("June", "06"), ("July", "07"), ("August", "08"),
   ("September", "09"), ("October", "10"), ("November", "11"), ("December", "12")]

/-- Abbreviated month-name table of `extract_date`. -/
def abbrevMonths : List (String × String) :=
  [("Jan", "01"), ("Feb", "02"), ("Mar", "03"), ("Apr", "04"),
   ("May", "05"), ("Jun", "06"), ("Jul", "07"), ("Aug", "08"),
   ("Sep", "09"), ("Oct", "10"), ("Nov", "11"), ("Dec", "12")]

/-- One alternation branch of the month-name patterns: the literal `name`,
then (for the abbreviated pattern) `[\.]*`, then `\s+`, then day and year. -/
def tryMonth (allowDots : Bool) (name : String) (cs : List Char) :
    Option (List Char × List Char) :=
  if name.data.isPrefixOf cs then
    let rest := cs.drop name.data.length
    let rest2 := if allowDots then rest.dropWhile (fun c => c = '.') else rest
    if (rest2.takeWhile isPySpace).isEmpty then none
    else dayThenYear (rest2.dropWhile isPySpace)
  else none

/-- Ordered alternation over month names at one position. -/
def monthPatAt (allowDots : Bool) (names : List (String × String))
    (cs : List Char) : Option (String × List Char × List Char) :=
  match names with
  | [] => none
  | (nm, _) :: restNames =>
    match tryMonth allowDots nm cs with
    | some (d, y) => some (nm, d, y)
    | none => monthPatAt allowDots restNames cs

/-- Pattern `(\d{1,2})[/\-](\d{1,2})[/\-](\d{4})` at one position. -/
def pat4At (cs : List Char) : Option (List Char × List Char × List Char) :=
  match digits12Sep (fun c => c = '/' || c = '-') cs with
  | some (m, rest) =>
    match digits12Sep (fun c => c = '/' || c = '-') rest with
    | some (d, rest2) =>
      match year4 rest2 with
      | some y => some (m, d, y)
      | none => none
    | none => none
  | none => none

/-- `re.search` of the ISO pattern; the group list of the match. -/
def searchPat1 (cs : List Char) : Option (List String) :=
  (searchFrom pat1At cs).map (fun g => [⟨g⟩])

/-- `re.search` of the full-month-name pattern; the group list. -/
def searchPat2 (cs : List Char) : Option (List String) :=
  (searchFrom (monthPatAt false fullMonths) cs).map
    (fun r => [r.1, ⟨r.2.1⟩, ⟨r.2.2⟩])

/-- `re.search` of the abbreviated-month-name pattern; the group list. -/
def searchPat3 (cs : List Char) : Option (List String) :=
  (searchFrom (monthPatAt true abbrevMonths) cs).map
    (fun r => [r.1, ⟨r.2.1⟩, ⟨r.2.2⟩])

/-- `re.search` of the numeric slash/dash pattern; the group list. -/
def searchPat4 (cs : List Char) : Option (List String) :=
  (searchFrom pat4At cs).map (fun r => [⟨r.1⟩, ⟨r.2.1⟩, ⟨r.2.2⟩])

/-- The group-analysis body of the `for pattern in patterns` loop: one
group means the ISO pattern (returned verbatim), three groups are a
month/day/year triple normalized by the month tables or `zfill`. -/
def interpretGroups : List String → Option String
  | [g] => some g
  | [g0, g1, g2] =>
    if (fullMonths.lookup g0).isSome then
      some (g2 ++ "-" ++ (fullMonths.lookup g0).getD "" ++ "-" ++ zfill2 g1)
    else if (abbrevMonths.lookup g0).isSome then
      some (g2 ++ "-" ++ (abbrevMonths.lookup g0).getD "" ++ "-" ++ zfill2 g1)
    else
      some (g2 ++ "-" ++ zfill2 g0 ++ "-" ++ zfill2 g1)
  | _ => none

/-- `extract_date` (processor.py lines 22-82): try the four date patterns
in order, first match wins, `none` when nothing matches. -/
def extract_date (text : String) : Option String :=
  if text = "" then none
  else
    match searchPat1 text.data with
    | some gs => interpretGroups gs
    | none =>
      match searchPat2 text.data with
      | some gs => interpretGroups gs
      | none =>
        match searchPat3 text.data with
        | some gs => interpretGroups gs
        | none =>
          match searchPat4 text.data with
          | some gs => interpretGroups gs
          | none => none

/-! ### XML documents (the fragment of `xml.etree.ElementTree` the code uses)

An element has a tag, attributes, the text before its first child, its
child elements, and the tail text that follows its own closing tag inside
its parent. -/

inductive Xml : Type where
  | elem (tag : String) (attrs : List (String × String)) (text : Option String)
         (children : List Xml) (tail : Option String)

/-- The element's tag. -/
def Xml.tag : Xml → String
  | .elem t _ _ _ _ => t

/-- The element's attribute list. -/
def Xml.attrs : Xml → List (String × String)
  | .elem _ a _ _ _ => a

/-- The element's leading text (`Element.text`). -/
def Xml.text : Xml → Option String
  | .elem _ _ t _ _ => t

/-- The element's child elements. -/
def Xml.children : Xml → List Xml
  | .elem _ _ _ c _ => c

/-- The element's tail text (`Element.tail`). -/
def Xml.tail : Xml → Option String
  | .elem _ _ _ _ t => t

/-- `Element.get(key, default)`. -/
def Xml.getAttrD (x : Xml) (k d : String) : String :=
  (x.attrs.lookup k).getD d

/-- `Element.get(key)` with no default. -/
def Xml.getAttr (x : Xml) (k : String) : Option String :=
  x.attrs.lookup k

mutual

/-- `"".join(element.itertext())`: the text of the element followed, for
each child in order, by the child's itertext and then its tail. -/
def Xml.itertext : Xml → String
  | .elem _ _ txt children _ => txt.getD "" ++ itertextList children

/-- Itertext of a child list, interleaving each child's tail. -/
def itertextList : List Xml → String
  | [] => ""
  | c :: cs => c.itertext ++ (c.tail).getD "" ++ itertextList cs

end

mutual

/-- All proper descendants of an element in document (preorder) order:
what `element.findall(".//TAG")` iterates before filtering. -/
def Xml.descendants : Xml → List Xml
  | .elem _ _ _ children _ => descendantsList children

/-- Descendants of a child list, each child together with its own
descendants, in document order. -/
def descendantsList : List Xml → List Xml
  | [] => []
  | c :: cs => c :: (c.descendants ++ descendantsList cs)

end

/-- `element.find("./TAG")`: first direct child with the tag. -/
def findChild (x : Xml) (t : String) : Option Xml :=
  x.children.find? (fun c => c.tag == t)

/-- `element.findall(".//TAG")` filtered by a predicate, document order. -/
def findAllDesc (x : Xml) (p : Xml → Bool) : List Xml :=
  x.descendants.filter p

/-- `element.find(".//TAG")`: first matching proper descendant. -/
def findDesc (x : Xml) (p : Xml → Bool) : Option Xml :=
  x.descendants.find? p

/-! ### Parsed unit data model (the dictionaries built by processor.py) -/

/-- A paragraph entry of a section. -/
structure ParagraphInfo where
  identifier : String
  content : String
  level : Nat
deriving DecidableEq, Repr

/-- A section entry of the title dictionary. -/
structure SectionInfo where
  number : String
  name : String
  full_identifier : String
  content : String
  word_count : Nat
  paragraphs : List ParagraphInfo
deriving DecidableEq, Repr

/-- A chapter entry of the title dictionary.  Note its exact key set:
`number`, `name`, `identifier`, `parts` — processor.py line 221 creates no
agency field on the chapter record. -/
structure ChapterInfo where
  number : String
  name : String
  identifier : String
  parts : List String
deriving DecidableEq, Repr

/-- The `dates` sub-dictionary. -/
structure DatesInfo where
  latest_amended_on : Option String
  latest_issue_date : Option String
  up_to_date_as_of : Option String
  processed_date : String
deriving DecidableEq, Repr

/-- The `metrics` sub-dictionary. -/
structure Metrics where
  word_count : Nat
  section_count : Nat
  paragraph_count : Nat
  chapter_count : Nat
  part_count : Nat
deriving DecidableEq, Repr

/-- The per-title dictionary produced by `extract_text_from_xml` (the
constant-empty `metadata` entry is omitted). -/
structure TitleData where
  number : Nat
  name : String
  full_name : String
  agencies : List String
  chapters : List ChapterInfo
  parts : List String
  sections : List SectionInfo
  dates : DatesInfo
  metrics : Metrics
  source_file : String
  source_url : String
  govinfo_url : String
deriving DecidableEq, Repr

/-- The `TITLE_NAMES` lookup table of downloader.py, in source order. -/
def TITLE_NAMES : List (Nat × String) :=
  [(1, "General Provisions"), (2, "Federal Financial Assistance"),
   (3, "The President"), (4, "Accounts"), (5, "Administrative Personnel"),
   (6, "Domestic Security"), (7, "Agriculture"), (8, "Aliens and Nationality"),
   (9, "Animals and Animal Products"), (10, "Energy"), (11, "Federal Elections"),
   (12, "Banks and Banking"), (13, "Business Credit and Assistance"),
   (14, "Aeronautics and Space"), (15, "Commerce and Foreign Trade"),
   (16, "Commercial Practices"), (17, "Commodity and Securities Exchanges"),
   (18, "Conservation of Power and Water Resources"), (19, "Customs Duties"),
   (20, "Employees' Benefits"), (21, "Food and Drugs"), (22, "Foreign Relations"),
   (23, "Highways"), (24, "Housing and Urban Development"), (25, "Indians"),
   (26, "Internal Revenue"), (27, "Alcohol, Tobacco Products and Firearms"),
   (28, "Judicial Administration"), (29, "Labor"), (30, "Mineral Resources"),
   (31, "Money and Finance: Treasury"), (32, "National Defense"),
   (33, "Navigation and Navigable Waters"), (34, "Education"),
   (35, "Panama Canal"), (36, "Parks, Forests, and Public Property"),
   (37, "Patents, Trademarks, and Copyrights"),
   (38, "Pensions, Bonuses, and Veterans' Relief"), (39, "Postal Service"),
   (40, "Protection of Environment"),
   (41, "Public Contracts and Property Management"), (42, "Public Health"),
   (43, "Public Lands: Interior"), (44, "Emergency Management and Assistance"),
   (45, "Public Welfare"), (46, "Shipping"), (47, "Telecommunication"),
   (48, "Federal Acquisition Regulations System"), (49, "Transportation"),
   (50, "Wildlife and Fisheries")]

/-- `TITLE_NAMES.get(n, "")`. -/
def titleNameOf (n : Nat) : String := (TITLE_NAMES.lookup n).getD ""

/-! ### `extract_text_from_xml` (processor.py lines 84-264) -/

/-- The `HEAD` title of a section or chapter element: stripped text of the
first direct `HEAD` child when that text is non-empty, else the empty
string. -/
def headTitle (x : Xml) : String :=
  match findChild x "HEAD" with
  | some h =>
    match h.text with
    | some t => if t ≠ "" then pyStrip t else ""
    | none => ""
  | none => ""

/-- The paragraph loop of the section extraction: direct `P` children in
order, kept when their stripped itertext is non-empty, with sequential ids
`p0, p1, ...` counting only the kept ones. -/
def parasOf : List Xml → Nat → List ParagraphInfo
  | [], _ => []
  | p :: rest, idx =>
    let t := pyStrip p.itertext
    if t ≠ "" then
      { identifier := "p" ++ toString idx, content := t, level := 1 } :: parasOf rest (idx + 1)
    else parasOf rest idx

/-- One iteration of the `DIV8[@TYPE='SECTION']` loop: the section record
built for one section element. -/
def sectionInfoOf (sec : Xml) : SectionInfo :=
  let section_num := sec.getAttrD "N" ""
  let content := pyStrip sec.itertext
  { number := section_num
    name := headTitle sec
    full_identifier := section_num
    content := content
    word_count := if content ≠ "" then pyWordCount content else 0
    paragraphs := parasOf (sec.children.filter (fun c => c.tag == "P")) 0 }

/-- The section loop: record list plus the running word and paragraph
totals (a section with empty content contributes `word_count = 0`). -/
def sectionsFold : List Xml → List SectionInfo × Nat × Nat
  | [] => ([], 0, 0)
  | e :: rest =>
    let si := sectionInfoOf e
    let (l, w, p) := sectionsFold rest
    (si :: l, si.word_count + w, si.paragraphs.length + p)

/-- One iteration of the `DIV5` chapter loop: the chapter record.  The
record has no agency field — the nested `AGENCY` element feeds only the
unit-level agency list. -/
def chapterInfoOf (ch : Xml) : ChapterInfo :=
  let num := ch.getAttrD "N" ""
  { number := num, name := headTitle ch, identifier := num, parts := [] }

/-- `AGENCY-NAME` of the first `AGENCY` descendant of a chapter element. -/
def agencyNameOfChapter (ch : Xml) : Option String :=
  (findDesc ch (fun e => e.tag == "AGENCY")).map (fun a => a.getAttrD "AGENCY-NAME" "")

/-- The agency accumulation of the chapter loop: append the name when it
is non-empty and not already present. -/
def addChapterAgency (agencies : List String) (ch : Xml) : List String :=
  match agencyNameOfChapter ch with
  | some nm => if nm ≠ "" && !(agencies.contains nm) then agencies ++ [nm] else agencies
  | none => agencies

/-- Python truthiness of an `Element`: true exactly when it has children
(the behaviour the `or` on line 135 of processor.py relies on). -/
def elemTruthy (x : Xml) : Bool := !x.children.isEmpty

/-- `root.find(".//DIV1/HEAD") or root.find(".//TITLE")`: first `HEAD`
child of a `DIV1` descendant, falling back to the first `TITLE` descendant
when that element is falsy (childless) or absent. -/
def titleNameElem (root : Xml) : Option Xml :=
  let div1Head :=
    (((findAllDesc root (fun e => e.tag == "DIV1")).map
        (fun d => d.children.filter (fun c => c.tag == "HEAD"))).flatten).head?
  match div1Head with
  | some el =>
    if elemTruthy el then some el else findDesc root (fun e => e.tag == "TITLE")
  | none => findDesc root (fun e => e.tag == "TITLE")

/-- The title-name extraction (processor.py lines 134-144): stripped
element text when truthy, else the `TITLE-NAME` attribute when truthy,
else the static `TITLE_NAMES` fallback. -/
def nameOfTitle (tn : Nat) (root : Xml) : String :=
  match titleNameElem root with
  | some el =>
    match el.text with
    | some t =>
      if t ≠ "" then pyStrip t
      else
        match el.getAttr "TITLE-NAME" with
        | some a => if a ≠ "" then a else titleNameOf tn
        | none => titleNameOf tn
    | none =>
      match el.getAttr "TITLE-NAME" with
      | some a => if a ≠ "" then a else titleNameOf tn
      | none => titleNameOf tn
  | none => titleNameOf tn

/-- The `AMDDATE` extraction: stripped text of the first `AMDDATE`
descendant fed to `extract_date` when truthy. -/
def amdDateOf (root : Xml) : Option String :=
  match findDesc root (fun e => e.tag == "AMDDATE") with
  | some el =>
    match el.text with
    | some t => if t ≠ "" then extract_date (pyStrip t) else none
    | none => none
  | none => none

/-- The body of the `try` block of `extract_text_from_xml`: build the full
title dictionary from a parsed document.  `today` stands for
`datetime.now().strftime("%Y-%m-%d")`. -/
def parseTitleXml (today : String) (title_num : Nat) (xml_file_path : String)
    (root : Xml) : TitleData :=
  let nm := nameOfTitle title_num root
  let secElems := findAllDesc root
    (fun e => e.tag == "DIV8" && e.getAttrD "TYPE" "" == "SECTION")
  let (sections, total_word_count, total_paragraph_count) := sectionsFold secElems
  let chapterElems := findAllDesc root (fun e => e.tag == "DIV5")
  let chapters := chapterElems.map chapterInfoOf
  { number := title_num
    name := nm
    full_name := "Title " ++ toString title_num ++ ": " ++ nm
    agencies := chapterElems.foldl addChapterAgency []
    chapters := chapters
    parts := []
    sections := sections
    dates := { latest_amended_on := amdDateOf root, latest_issue_date := none,
               up_to_date_as_of := none, processed_date := today }
    metrics := { word_count := total_word_count, section_count := sections.length,
                 paragraph_count := total_paragraph_count,
                 chapter_count := chapters.length, part_count := 0 }
    source_file := xml_file_path
    source_url := "https://www.ecfr.gov/current/title-" ++ toString title_num
    govinfo_url := "https://www.govinfo.gov/bulkdata/ECFR/title-" ++
      toString title_num ++ "/ECFR-title" ++ toString title_num ++ ".xml" }

/-- `os.path.basename` for POSIX paths. -/
def basenameOf (path : String) : String :=
  ⟨(path.data.reverse.takeWhile (fun c => c ≠ '/')).reverse⟩

/-- Digit run to a natural number (`int` of a digit string). -/
def natOfDigits (ds : List Char) : Nat :=
  ds.foldl (fun n c => n * 10 + (c.toNat - '0'.toNat)) 0

/-- `re.match(r'title-(\d+)\.xml', file_name)`: a PREFIX match — the
literal `title-`, one or more digits, then `.xml`, with anything allowed
after it.  Returns the captured number. -/
def titleNumOfFileName (name : String) : Option Nat :=
  if ("title-".data).isPrefixOf name.data then
    let rest := name.data.drop 6
    let ds := rest.takeWhile Char.isDigit
    if ds.isEmpty then none
    else if (".xml".data).isPrefixOf (rest.drop ds.length) then some (natOfDigits ds)
    else none
  else none

/-- An on-disk XML artifact: its byte size and the result of `ET.parse`
on it (`none` when the bytes are not well-formed XML, in which case the
parse raises and the unit is skipped). -/
structure XFile where
  size : Nat
  parsed : Option Xml

/-- The file system visible to the fetcher and parser: an association of
paths to files, first binding wins. -/
def FS : Type := List (String × XFile)

/-- File lookup (`os.path.exists` / reading the file). -/
def fsLookup (fs : FS) (path : String) : Option XFile :=
  List.lookup path fs

/-- File write: replace any binding for the path. -/
def fsSet (fs : FS) (path : String) (f : XFile) : FS :=
  (path, f) :: List.filter (fun kv => kv.1 ≠ path) fs

/-- The persisted per-unit JSON records in the processed directory, keyed
by unit number (every write in scope targets one fixed directory, at path
`title-{n}.json`). -/
def Store : Type := List (Nat × TitleData)

/-- Persisted record lookup. -/
def storeLookup (s : Store) (n : Nat) : Option TitleData :=
  List.lookup n s

/-- Persisted record write: replace any record for the unit. -/
def storeSet (s : Store) (n : Nat) (td : TitleData) : Store :=
  (n, td) :: List.filter (fun kv => kv.1 ≠ n) s

/-- `extract_text_from_xml` (processor.py lines 84-264): fails when the
file does not exist, when the basename lacks the `title-<digits>.xml`
prefix, or when the XML does not parse; otherwise builds the title
dictionary, persists it and returns it with the output path. -/
def extract_text_from_xml (today : String) (fs : FS) (xml_file_path output_dir : String)
    (store : Store) : Option (TitleData × String) × Store :=
  match fsLookup fs xml_file_path with
  | none => (none, store)
  | some file =>
    match titleNumOfFileName (basenameOf xml_file_path) with
    | none => (none, store)
    | some title_num =>
      match file.parsed with
      | none => (none, store)
      | some root =>
        let td := parseTitleXml today title_num xml_file_path root
        let out := output_dir ++ "/title-" ++ toString title_num ++ ".json"
        (some (td, out), storeSet store title_num td)

/-! ### `download_title` (downloader.py lines 50-103)

The network is an oracle `net : title → attempt → Option XFile`; a `some`
is a successful response whose body is written to disk, a `none` is a
raised request exception.  `netCalls` counts issued requests.  Wall-clock
sleeps (backoff, inter-request delay) have no observable effect on the
modelled state and are dropped. -/

/-- `MAX_RETRIES` from downloader.py. -/
def MAX_RETRIES : Nat := 3

/-- Fetcher/parser state: the XML cache directory contents plus a network
request counter. -/
structure IoState where
  fs : FS
  netCalls : Nat

/-- The retry loop of `download_title` over the remaining attempt
indices: each iteration issues one request; on success the body is saved
and the on-disk size returned, after the last failure `(False, path, 0)`. -/
def dlAttempts (net : Nat → Nat → Option XFile) (title_num : Nat) (file_path : String) :
    List Nat → IoState → (Bool × String × Nat) × IoState
  | [], st => ((false, file_path, 0), st)
  | a :: rest, st =>
    let st1 : IoState := { st with netCalls := st.netCalls + 1 }
    match net title_num a with
    | some f => ((true, file_path, f.size), { st1 with fs := fsSet st1.fs file_path f })
    | none =>
      if rest.isEmpty then ((false, file_path, 0), st1)
      else dlAttempts net title_num file_path rest st1

/-- `download_title(title_num, output_dir, skip_existing)`: when
`skip_existing` holds and a cached file of nonzero size exists at the
destination, succeed immediately with its size and no network traffic;
otherwise run the retry loop. -/
def download_title (net : Nat → Nat → Option XFile) (title_num : Nat)
    (output_dir : String) (skip_existing : Bool) (st : IoState) :
    (Bool × String × Nat) × IoState :=
  let file_path := output_dir ++ "/title-" ++ toString title_num ++ ".xml"
  match (if skip_existing then fsLookup st.fs file_path else none) with
  | some f =>
    if f.size > 0 then ((true, file_path, f.size), st)
    else dlAttempts net title_num file_path (List.range MAX_RETRIES) st
  | none => dlAttempts net title_num file_path (List.range MAX_RETRIES) st

/-! ### Summary (`generate_summary`, processor.py lines 266-358) -/

/-- Per-title projection in the summary's `titles` list. -/
structure TitleSummary where
  number : Nat
  name : String
  agencies : List String
  dates : DatesInfo
  metrics : Metrics
deriving DecidableEq, Repr

/-- The `date_ranges` record of the summary. -/
structure DateRanges where
  earliest_amended : Option String
  latest_amended : Option String
  earliest_issue : Option String
  latest_issue : Option String
  earliest_update : Option String
  latest_update : Option String
  processing_date : String
deriving DecidableEq, Repr

/-- The cross-title summary. -/
structure Summary where
  total_titles : Nat
  titles : List TitleSummary
  agencies : List (String × Nat)
  date_ranges : DateRanges
  total_metrics : Metrics
deriving DecidableEq, Repr

/-- Replace the first element satisfying `p` by its image under `f`
(update-in-place of the matching row). -/
def updateFirst {α : Type} (p : α → Bool) (f : α → α) : List α → List α
  | [] => []
  | x :: xs => if p x then f x :: xs else x :: updateFirst p f xs

/-- `summary["agencies"][agency] += 1` on a `defaultdict(int)`: bump the
existing binding or append a fresh one with count 1 (insertion order is
first-increment order). -/
def bumpAgency (m : List (String × Nat)) (a : String) : List (String × Nat) :=
  if (m.lookup a).isSome then
    updateFirst (fun kv => kv.1 == a) (fun kv => (kv.1, kv.2 + 1)) m
  else m ++ [(a, 1)]

/-- Elementwise metric accumulation (`summary["total_metrics"][key] += value`
for each of the five shared keys). -/
def addMetrics (acc m : Metrics) : Metrics :=
  { word_count := acc.word_count + m.word_count
    section_count := acc.section_count + m.section_count
    paragraph_count := acc.paragraph_count + m.paragraph_count
    chapter_count := acc.chapter_count + m.chapter_count
    part_count := acc.part_count + m.part_count }

/-- `if not cur or d < cur: cur = d` (the stored value is kept when it is
falsy, i.e. the empty string, too). -/
def updMin (cur : Option String) (d : String) : Option String :=
  match cur with
  | none => some d
  | some c => if c = "" || decide (d < c) then some d else some c

/-- `if not cur or d > cur: cur = d`. -/
def updMax (cur : Option String) (d : String) : Option String :=
  match cur with
  | none => some d
  | some c => if c = "" || decide (c < d) then some d else some c

/-- Date-range update for one optional date of one unit; skipped when the
date is unset or empty (Python truthiness). -/
def updRange (lo hi : Option String) (d : Option String) : Option String × Option String :=
  match d with
  | some s => if s ≠ "" then (updMin lo s, updMax hi s) else (lo, hi)
  | none => (lo, hi)

/-- One iteration of the collection loop of `generate_summary`: append the
title projection, bump the agency counts, add the metrics, widen the date
ranges. -/
def summaryStep (acc : Summary) (entry : Nat × TitleData) : Summary :=
  let td := entry.2
  let ts : TitleSummary :=
    { number := entry.1, name := td.name, agencies := td.agencies,
      dates := td.dates, metrics := td.metrics }
  let dr := acc.date_ranges
  let (ea, la) := updRange dr.earliest_amended dr.latest_amended td.dates.latest_amended_on
  let (ei, li) := updRange dr.earliest_issue dr.latest_issue td.dates.latest_issue_date
  let (eu, lu) := updRange dr.earliest_update dr.latest_update td.dates.up_to_date_as_of
  { acc with
    titles := acc.titles ++ [ts]
    agencies := td.agencies.foldl bumpAgency acc.agencies
    total_metrics := addMetrics acc.total_metrics td.metrics
    date_ranges := { dr with
      earliest_amended := ea, latest_amended := la,
      earliest_issue := ei, latest_issue := li,
      earliest_update := eu, latest_update := lu } }

/-- The initial summary record of `generate_summary` (processor.py lines
272-292), before the collection loop runs. -/
def summaryInit (today : String) (results : List (Nat × TitleData)) : Summary :=
  { total_titles := results.length
    titles := []
    agencies := []
    date_ranges :=
      { earliest_amended := none, latest_amended := none,
        earliest_issue := none, latest_issue := none,
        earliest_update := none, latest_update := none,
        processing_date := today }
    total_metrics :=
      { word_count := 0, section_count := 0, paragraph_count := 0,
        chapter_count := 0, part_count := 0 } }

/-- Stable insertion of a title summary into a number-sorted list: after
every element whose number is less than or equal (so ties keep their
original relative order). -/
def insertSorted (t : TitleSummary) : List TitleSummary → List TitleSummary
  | [] => [t]
  | h :: rest => if h.number ≤ t.number then h :: insertSorted t rest else t :: h :: rest

/-- `summary["titles"].sort(key=lambda x: x["number"])` — Python's sort
is THE stable ascending sort, realized here as left-fold insertion
sort (any two stable sorts by the same key agree). -/
def sortByNumber (l : List TitleSummary) : List TitleSummary :=
  l.foldl (fun acc t => insertSorted t acc) []

/-- `generate_summary(results, output_dir)` (processor.py lines 266-358):
`none` (nothing written) when `results` is empty, else the summary built
from exactly the given results by the collection loop, its titles list
sorted by number. -/
def generate_summary (today : String) (results : List (Nat × TitleData)) : Option Summary :=
  if results.isEmpty then none
  else
    let s := results.foldl summaryStep (summaryInit today results)
    some { s with titles := sortByNumber s.titles }

/-! ### Pipeline (`process_title` / `process_all_titles`, pipeline.py)

The thread pool is modelled sequentially: each unit's task reads and
writes only its own cache file and its own persisted record, so the
per-unit results and the final stores do not depend on the interleaving;
`results` is collected in submission order exactly as the dict insertion
order of pipeline.py lines 63-77. -/

/-- Pipeline state: the XML cache, the persisted per-unit records, the
summary artifact, and the network request counter. -/
structure PipeState where
  fs : FS
  processed : Store
  summary : Option Summary
  netCalls : Nat

/-- `process_title` (pipeline.py lines 19-29): fetch then parse; `none`
when either step fails. -/
def process_title (net : Nat → Nat → Option XFile) (today : String) (title_num : Nat)
    (xml_dir json_dir : String) (force_download : Bool) (st : PipeState) :
    Option TitleData × PipeState :=
  let ((success, xml_path, _), io1) :=
    download_title net title_num xml_dir (!force_download) ⟨st.fs, st.netCalls⟩
  let st1 : PipeState := { st with fs := io1.fs, netCalls := io1.netCalls }
  if success then
    let (res, store2) := extract_text_from_xml today st1.fs xml_path json_dir st1.processed
    (res.map Prod.fst, { st1 with processed := store2 })
  else (none, st1)

/-- The worker loop: run each unit's pipeline, keeping an entry per
SUCCESSFUL unit only (pipeline.py lines 66-77 insert into `results` only
when `title_data` is truthy). -/
def runBatch (net : Nat → Nat → Option XFile) (today : String)
    (xml_dir json_dir : String) (force_download : Bool) :
    List Nat → PipeState → List (Nat × TitleData) × PipeState
  | [], st => ([], st)
  | n :: rest, st =>
    let (r, st1) := process_title net today n xml_dir json_dir force_download st
    let (rs, st2) := runBatch net today xml_dir json_dir force_download rest st1
    match r with
    | some td => ((n, td) :: rs, st2)
    | none => (rs, st2)

/-- The unit list of `process_all_titles` (pipeline.py line 46): the
requested units, or all 50 when the argument is `None` or the empty list
(Python `or` treats an empty list as falsy). -/
def titlesToProcess (title_nums : Option (List Nat)) : List Nat :=
  match title_nums with
  | some l => if l.isEmpty then TITLE_NAMES.map Prod.fst else l
  | none => TITLE_NAMES.map Prod.fst

/-- `process_all_titles`, continued: run the batch, then generate and
write the summary when at least one unit succeeded. -/
def process_all_titles (net : Nat → Nat → Option XFile) (today : String)
    (data_dir : String) (force_download : Bool) (title_nums : Option (List Nat))
    (st : PipeState) : List (Nat × TitleData) × PipeState :=
  let xml_dir := data_dir ++ "/xml"
  let json_dir := data_dir ++ "/processed"
  let (results, st1) :=
    runBatch net today xml_dir json_dir force_download (titlesToProcess title_nums) st
  let st2 :=
    if results.isEmpty then st1
    else
      match generate_summary today results with
      | some s => { st1 with summary := some s }
      | none => st1
  (results, st2)

/-! ### Readability (`analyzer.py` lines 18-99) -/

/-- The regex class `\w` (ASCII part): letters, digits, underscore. -/
def isWordChar (c : Char) : Bool := c.isAlphanum || c = '_'

/-- `re.sub(r'<[^>]+>', ' ', text)`: replace each maximal
angle-bracketed run (with at least one non-`>` character inside) by a
space. -/
def stripTags (l : List Char) : List Char :=
  match l with
  | [] => []
  | c :: cs =>
    if c = '<' then
      match h : cs.dropWhile (fun x => x ≠ '>') with
      | '>' :: rest2 =>
        if (cs.takeWhile (fun x => x ≠ '>')).isEmpty then c :: stripTags cs
        else ' ' :: stripTags rest2
      | _ => c :: stripTags cs
    else c :: stripTags cs
termination_by l.length
decreasing_by
  · simp
  · have h1 : (cs.dropWhile (fun x => x ≠ '>')).length ≤ cs.length :=
      (List.dropWhile_sublist _).length_le
    rw [h] at h1
    simp at h1 ⊢
    omega
  · simp
  · simp

/-- `re.sub(r'\s+', ' ', text)`: collapse whitespace runs to one space;
the flag records whether the previous character was whitespace. -/
def collapseWsAux : List Char → Bool → List Char
  | [], _ => []
  | c :: cs, prevWs =>
    if isPySpace c then
      if prevWs then collapseWsAux cs true else ' ' :: collapseWsAux cs true
    else c :: collapseWsAux cs false

/-- `clean_text` (analyzer.py lines 18-32): strip HTML tags, blank out
characters outside `\w`, whitespace and sentence punctuation, collapse
whitespace, strip. -/
def clean_text (text : String) : String :=
  if text = "" then ""
  else
    let t1 := stripTags text.data
    let t2 := t1.map (fun c =>
      if isWordChar c || isPySpace c ||
         (c = '.' || c = ',' || c = ';' || c = ':' || c = '!' || c = '?') then c
      else ' ')
    ⟨pyStripL (collapseWsAux t2 false)⟩

/-- The five readability metrics.  The numeric type is opaque to the
code (no arithmetic is performed on scores); `Int` stands in for the
library's floats. -/
structure ReadabilityScores where
  flesch_reading_ease : Int
  flesch_kincaid_grade : Int
  smog_index : Int
  dale_chall_readability_score : Int
  difficulty_level : Int
deriving DecidableEq, Repr

/-- The documented zero/default result for short or failing inputs. -/
def zeroScores : ReadabilityScores := ⟨0, 0, 0, 0, 0⟩

/-- `calculate_readability` (analyzer.py lines 69-99).  The external
`textstat` library is the oracle `scorer` (one call standing for the five
individual metric calls on the same cleaned text; a raised exception is
the `.error` case and yields the zero dict).  The boolean records whether
the scorer was invoked. -/
def calculate_readability (scorer : String → Except Unit ReadabilityScores)
    (text : String) : ReadabilityScores × Bool :=
  if text = "" || text.length < 100 then (zeroScores, false)
  else
    match scorer (clean_text text) with
    | .ok s => (s, true)
    | .error _ => (zeroScores, true)

/-! ### Database persister (`bulk_to_db.py`)

Rows mirror the ORM models of backend/models/models.py that
`process_and_store_title` writes.  `db.nextId` models the autoincrement
primary-key counter for titles. -/

/-- Gregorian leap year. -/
def leapYear (y : Nat) : Bool :=
  (y % 4 = 0 && y % 100 ≠ 0) || y % 400 = 0

/-- Days in a month (Gregorian, as `datetime.date` validates). -/
def daysInMonth (y m : Nat) : Nat :=
  if m = 2 then (if leapYear y then 29 else 28)
  else if m = 4 || m = 6 || m = 9 || m = 11 then 30
  else 31

/-- `datetime.strptime(s, "%Y-%m-%d")` succeeds exactly on
`YYYY-M-D`-shaped strings (year exactly four digits, month and day one or
two digits) naming a valid calendar date. -/
def strptimeOk (s : String) : Bool :=
  match s.data with
  | y1 :: y2 :: y3 :: y4 :: '-' :: rest =>
    if y1.isDigit && y2.isDigit && y3.isDigit && y4.isDigit then
      let mds := rest.takeWhile Char.isDigit
      match rest.drop mds.length with
      | '-' :: rest2 =>
        let dds := rest2.takeWhile Char.isDigit
        if (rest2.drop dds.length).isEmpty &&
           (mds.length = 1 || mds.length = 2) &&
           (dds.length = 1 || dds.length = 2) then
          let y := natOfDigits [y1, y2, y3, y4]
          let m := natOfDigits mds
          let d := natOfDigits dds
          1 ≤ m && m ≤ 12 && 1 ≤ d && d ≤ daysInMonth y m
        else false
      | _ => false
    else false
  | _ => false

/-- `parse_date` (bulk_to_db.py lines 42-50): `None` for falsy or
unparsable input; a valid date is kept (modelled by its ISO string rather
than a datetime object). -/
def parse_date (s : Option String) : Option String :=
  match s with
  | none => none
  | some str => if str = "" then none else if strptimeOk str then some str else none

/-- A `title` table row (the columns `process_and_store_title` touches). -/
structure TitleRow where
  id : Nat
  number : Nat
  name : String
  full_name : String
  reserved : Bool
  source_url : Option String
  up_to_date_as_of : Option String
  latest_amended_on : Option String
  latest_issue_date : Option String
deriving DecidableEq, Repr

/-- A `regulation_metrics` table row as `process_metrics` creates it. -/
structure MetricsRow where
  title_id : Nat
  word_count : Nat
  section_count : Nat
  paragraph_count : Nat
deriving DecidableEq, Repr

/-- A `chapter` table row (the columns `process_chapters` touches). -/
structure ChapterRow where
  number : String
  name : String
  title_id : Nat
  identifier : String
  description : String
  agency_name : String
deriving DecidableEq, Repr

/-- A `paragraph` table row. -/
structure ParaRow where
  identifier : String
  content : String
  level : Nat
  order_index : Nat
deriving DecidableEq, Repr

/-- A `section` table row with its paragraph children.  `process_sections`
creates sections with no part (and no title) linkage, so `part_id` is
always `none` for rows written here. -/
structure SectionRow where
  number : String
  name : String
  text_content : String
  full_identifier : String
  part_id : Option Nat
  paragraphs : List ParaRow
deriving DecidableEq, Repr

/-- The database state the persister touches. -/
structure Db where
  nextId : Nat
  titles : List TitleRow
  metricsRows : List MetricsRow
  chapters : List ChapterRow
  sections : List SectionRow
deriving DecidableEq, Repr

/-- The update branch of the title upsert (bulk_to_db.py lines 83-98):
overwrite the row's fields in place, leaving `id` and `source_url`
alone. -/
def titleUpdate (td : TitleData) (r : TitleRow) : TitleRow :=
  { r with
    name := td.name, full_name := td.full_name, reserved := false,
    up_to_date_as_of := parse_date td.dates.up_to_date_as_of,
    latest_amended_on := parse_date td.dates.latest_amended_on,
    latest_issue_date := parse_date td.dates.latest_issue_date }

/-- The fresh title row of the insert branch. -/
def titleRowOf (i : Nat) (td : TitleData) : TitleRow :=
  { id := i, number := td.number, name := td.name,
    full_name := td.full_name, reserved := false,
    source_url := some td.source_url,
    up_to_date_as_of := parse_date td.dates.up_to_date_as_of,
    latest_amended_on := parse_date td.dates.latest_amended_on,
    latest_issue_date := parse_date td.dates.latest_issue_date }

/-- The title upsert (bulk_to_db.py lines 80-117): update the first row
with the unit's number in place, or insert a fresh row with the next id.
Returns the row id used. -/
def upsertTitle (td : TitleData) (db : Db) : Nat × Db :=
  match db.titles.find? (fun t => t.number == td.number) with
  | some t =>
    let ts := updateFirst (fun r => r.number == td.number) (titleUpdate td) db.titles
    (t.id, { db with titles := ts })
  | none =>
    let ts := db.titles ++ [titleRowOf db.nextId td]
    (db.nextId, { db with nextId := db.nextId + 1, titles := ts })

/-- Modelled from the code as observed at runtime: `process_agencies`
(bulk_to_db.py lines 138-163) skips falsy names with `continue`, but its
first access to `title_obj.agencies` on a non-empty name raises
`AttributeError` — the ORM `Title` model (models.py) defines only the
singular `agency` relationship, no `agencies` attribute.  The enclosing
`try` of `process_and_store_title` catches it and rolls the session back
to the last commit, so a non-empty agency name aborts the store with no
durable agency change; an all-empty list is a no-op. -/
def process_agencies (names : List String) (db : Db) : Option Db :=
  match names with
  | [] => some db
  | a :: rest => if a = "" then process_agencies rest db else none

/-- `process_metrics` (bulk_to_db.py lines 165-175): unconditionally
append a fresh metrics row — "Just create new metrics - don't try to
query existing ones". -/
def process_metrics (tid : Nat) (m : Metrics) (db : Db) : Db :=
  { db with metricsRows := db.metricsRows ++
      [{ title_id := tid, word_count := m.word_count,
         section_count := m.section_count, paragraph_count := m.paragraph_count }] }

/-- The chapter row `process_chapters` writes for one chapter dict (the
`description` and `agency_name` keys are absent from parser output, so
`.get` yields `""`). -/
def chapterRowOf (tid : Nat) (c : ChapterInfo) : ChapterRow :=
  { number := c.number, name := c.name, title_id := tid,
    identifier := c.identifier, description := "", agency_name := "" }

/-- The update branch of the chapter loop (bulk_to_db.py lines 191-196):
overwrite the matched row's fields; the `description` and `agency_name`
keys are absent from parser output, so `.get` yields `""`. -/
def chapterUpdate (c : ChapterInfo) (r : ChapterRow) : ChapterRow :=
  { r with
    name := c.name, identifier := c.identifier,
    description := "", agency_name := "" }

/-- The chapter loop iteration, continued: query, then update or insert. -/
def chapterStep (tid : Nat) (l : List ChapterRow) (c : ChapterInfo) : List ChapterRow :=
  if c.number = "" then l
  else
    match l.find? (fun r => r.number == c.number && r.title_id == tid) with
    | some _ =>
      updateFirst (fun r => r.number == c.number && r.title_id == tid) (chapterUpdate c) l
    | none => l ++ [chapterRowOf tid c]

/-- `process_chapters` over the chapter list. -/
def process_chapters (tid : Nat) (cs : List ChapterInfo) (db : Db) : Db :=
  { db with chapters := cs.foldl (chapterStep tid) db.chapters }

/-- The section row `process_sections` creates for one section dict,
with its paragraph children (`identifier` and `level` are always present
in parser output; `order_index` is the enumeration index). -/
def sectionRowOf (s : SectionInfo) : SectionRow :=
  { number := s.number, name := s.name, text_content := s.content,
    full_identifier := s.full_identifier, part_id := none,
    paragraphs := (s.paragraphs.enum).map (fun ip =>
      { identifier := ip.2.identifier, content := ip.2.content,
        level := ip.2.level, order_index := ip.1 }) }

/-- The update branch of the section loop (bulk_to_db.py lines 225-229):
overwrite name, text content and full identifier of the matched root
section — existing paragraphs are left alone, paragraphs are written
only on creation. -/
def sectionUpdate (s : SectionInfo) (r : SectionRow) : SectionRow :=
  { r with
    name := s.name, text_content := s.content,
    full_identifier := s.full_identifier }

/-- The section loop iteration, continued: query, then update or insert. -/
def sectionStep (l : List SectionRow) (s : SectionInfo) : List SectionRow :=
  if s.number = "" then l
  else
    match l.find? (fun r => r.number == s.number && r.part_id == none) with
    | some _ =>
      updateFirst (fun r => r.number == s.number && r.part_id == none) (sectionUpdate s) l
    | none => l ++ [sectionRowOf s]

/-- `process_sections` over the section list. -/
def process_sections (ss : List SectionInfo) (db : Db) : Db :=
  { db with sections := ss.foldl sectionStep db.sections }

/-- The common shape of the chapter and section upsert loops: skip an
empty key, update the first row matching the record's key predicate in
place, or append a fresh row.  `chapterStep` and `sectionStep` are
definitionally instances of this shape. -/
def keyedStep {α β : Type} (key : β → String) (p : β → α → Bool)
    (upd : β → α → α) (mk : β → α) (l : List α) (b : β) : List α :=
  if key b = "" then l
  else
    match l.find? (p b) with
    | some _ => updateFirst (p b) (upd b) l
    | none => l ++ [mk b]

/-- The store stage of `process_and_store_title` (bulk_to_db.py lines
78-136), after download and parse: upsert the title (committed), then
agencies, metrics, chapters and sections; a failure inside the `try`
(see `process_agencies`) rolls back to the title commit and yields
`none`. -/
def store_title_data (td : TitleData) (db : Db) : Option TitleData × Db :=
  let (tid, db1) := upsertTitle td db
  match process_agencies td.agencies db1 with
  | none => (none, db1)
  | some db2 =>
    let db3 := process_metrics tid td.metrics db2
    let db4 := process_chapters tid td.chapters db3
    let db5 := process_sections td.sections db4
    (some td, db5)

/-! ### Spec-side definitions and concrete fixtures -/

/-- Append a name unless already present (the elementary step of
first-seen-order deduplication). -/
def insertNew (acc : List String) (a : String) : List String :=
  if a ∈ acc then acc else acc ++ [a]

/-- First-seen-order deduplication, stated independently of the chapter
loop: keep each name's first occurrence, in order. -/
def firstSeenDedup (l : List String) : List String :=
  l.foldl insertNew []

/-- The claim's reading of the filename check: the basename IS of the form
`title-<digits>.xml` (a full match, nothing after `.xml`). -/
def claimFileNameMatches (name : String) : Bool :=
  if ("title-".data).isPrefixOf name.data then
    let rest := name.data.drop 6
    let ds := rest.takeWhile Char.isDigit
    !ds.isEmpty && rest.drop ds.length == ".xml".data
  else false

/-- A string of the exact zero-padded shape `YYYY-MM-DD` (four digits,
dash, two digits, dash, two digits): what the spec calls "normalized to
ISO `YYYY-MM-DD` form". -/
def isPaddedIso (s : String) : Bool :=
  match s.data with
  | [a, b, c, d, '-', e, f, '-', g, h] =>
    a.isDigit && b.isDigit && c.isDigit && d.isDigit &&
    e.isDigit && f.isDigit && g.isDigit && h.isDigit
  | _ => false

/-- Fixture: a well-formed document with no `DIV8` sections at all. -/
def emptyDoc : Xml := .elem "ECFR" [] none [] none

/-- Fixture: file system containing only the cached XML for unit 7, with
no sections. -/
def fsZero : FS := [("data/xml/title-7.xml", { size := 64, parsed := some emptyDoc })]

/-- Fixture: a one-chapter document whose chapter carries a nested agency
element with the given agency name. -/
def chapterDocWith (agency : String) : Xml :=
  .elem "ECFR" [] none
    [.elem "DIV5" [("N", "I"), ("TYPE", "CHAPTER")] none
      [.elem "HEAD" [] (some " CHAPTER I ") [] none,
       .elem "AGENCY" [("AGENCY-NAME", agency)] none [] none]
      none]
    none

/-- Fixture: a two-section document; the second section is empty. -/
def twoSectionDoc : Xml :=
  .elem "ECFR" [] none
    [.elem "DIV8" [("TYPE", "SECTION"), ("N", "1.1")] (some "  One two three. ")
      [.elem "HEAD" [] (some "S 1.1 First.") [] none,
       .elem "P" [] (some "One two") [] (some " three.")]
      none,
     .elem "DIV8" [("TYPE", "SECTION"), ("N", "1.2")] none [] none]
    none

/-- Fixture: a tiny parsed unit for database round trips (no agencies, so
the store reaches the metrics step). -/
def tdSample : TitleData :=
  { number := 7
    name := "Agriculture"
    full_name := "Title 7: Agriculture"
    agencies := []
    chapters := [{ number := "I", name := "CHAPTER I", identifier := "I", parts := [] }]
    parts := []
    sections :=
      [{ number := "1.1", name := "S 1.1 First.", full_identifier := "1.1",
         content := "One two three.", word_count := 3,
         paragraphs := [{ identifier := "p0", content := "One two three.", level := 1 }] }]
    dates := { latest_amended_on := some "2021-03-03", latest_issue_date := none,
               up_to_date_as_of := none, processed_date := "2026-10-12" }
    metrics := { word_count := 3, section_count := 1, paragraph_count := 1,
                 chapter_count := 1, part_count := 0 }
    source_file := "data/xml/title-7.xml"
    source_url := "https://www.ecfr.gov/current/title-7"
    govinfo_url := "https://www.govinfo.gov/bulkdata/ECFR/title-7/ECFR-title7.xml" }

/-- Fixture: the empty database. -/
def emptyDb : Db := { nextId := 1, titles := [], metricsRows := [], chapters := [], sections := [] }

/-- Fixture: a parsed unit persisted by an earlier batch run, for the
summary-scope scenario. -/
def tdOld : TitleData :=
  { tdSample with
    number := 1, name := "General Provisions",
    full_name := "Title 1: General Provisions",
    source_file := "data/xml/title-1.xml",
    source_url := "https://www.ecfr.gov/current/title-1",
    govinfo_url := "https://www.govinfo.gov/bulkdata/ECFR/title-1/ECFR-title1.xml" }

/-- Fixture: network oracle for the summary-scope scenario — only unit 2
is downloadable. -/
def netOnly2 : Nat → Nat → Option XFile :=
  fun t a => if t == 2 && a == 0 then some { size := 64, parsed := some twoSectionDoc } else none

/-- Fixture: pipeline state left by an earlier run that persisted unit 1
(record on disk and an old summary covering it). -/
def stEarlier : PipeState :=
  { fs := []
    processed := [(1, tdOld)]
    summary := generate_summary "2026-10-11" [(1, tdOld)]
    netCalls := 0 }

/-- Fixture: network oracle for the three-unit batch scenario — units 1
and 3 succeed on the first attempt, unit 2 always fails. -/
def net13 : Nat → Nat → Option XFile :=
  fun t a =>
    if (t == 1 || t == 3) && a == 0 then some { size := 64, parsed := some emptyDoc }
    else none

/-- Fixture: the pristine pipeline state. -/
def stEmpty : PipeState := { fs := [], processed := [], summary := none, netCalls := 0 }

/-- Fixture: a file whose basename merely STARTS WITH the
`title-<digits>.xml` pattern, holding well-formed XML. -/
def fsLoose : FS := [("data/title-3.xmlextra", { size := 64, parsed := some emptyDoc })]

/-- Fixture: the parse result the code produces for that loosely-named
file. -/
def tdLoose : TitleData := parseTitleXml "2026-10-12" 3 "data/title-3.xmlextra" emptyDoc

/-- Fixture: the parse result for the cached zero-section unit 7. -/
def tdZero : TitleData := parseTitleXml "2026-10-12" 7 "data/xml/title-7.xml" emptyDoc

/-- Fixture: fetcher state holding a nonempty cached artifact for
unit 7. -/
def stCache : IoState :=
  { fs := [("cache/title-7.xml", { size := 123, parsed := some emptyDoc })], netCalls := 0 }

/-- Fixture: a network oracle that always fails. -/
def netNever : Nat → Nat → Option XFile := fun _ _ => none

/-- Fixture: a scorer oracle returning fixed nonzero scores. -/
def scorerConst : String → Except Unit ReadabilityScores :=
  fun _ => .ok ⟨60, 12, 9, 7, 11⟩

/-- A one- or two-character digit string (a `\d{1,2}` capture). -/
def digits12Str (d : List Char) : Prop :=
  (d.length = 1 ∨ d.length = 2) ∧ d.all Char.isDigit = true

/-- A four-character digit string (a `\d{4}` capture). -/
def digits4Str (y : List Char) : Prop :=
  y.length = 4 ∧ y.all Char.isDigit = true

/-! ## Theorems -/

/-- The section loop returns the mapped records with the totals equal to
the sums over the returned records. -/
theorem sectionsFold_eq (elems : List Xml) :
    sectionsFold elems =
      (elems.map sectionInfoOf,
       ((elems.map sectionInfoOf).map SectionInfo.word_count).sum,
       ((elems.map sectionInfoOf).map (fun s => s.paragraphs.length)).sum) := by
  induction elems with
  | nil => simp [sectionsFold]
  | cons e rest ih => simp [sectionsFold, ih]

/-- The parser derives the unit number from its `title_num` argument. -/
theorem parseTitleXml_number (today : String) (n : Nat) (path : String) (root : Xml) :
    (parseTitleXml today n path root).number = n := by
  simp [parseTitleXml, sectionsFold_eq]

/-- The parser's section list and metric totals. -/
theorem parseTitleXml_metrics (today : String) (n : Nat) (path : String) (root : Xml) :
    (parseTitleXml today n path root).metrics.word_count =
      ((parseTitleXml today n path root).sections.map SectionInfo.word_count).sum ∧
    (parseTitleXml today n path root).metrics.section_count =
      (parseTitleXml today n path root).sections.length := by
  simp [parseTitleXml, sectionsFold_eq]

/-- Claim C2: for every ParsedUnit produced by a successful parse,
`metrics.word_count` is the sum of the sections' word counts and
`metrics.section_count` is the number of sections; in particular a unit
with zero sections has both equal to zero while still being a successful
parse result. -/
theorem parsed_unit_metrics_invariant
    (today : String) (fs : FS) (path outdir : String) (store : Store)
    (td : TitleData) (out : String)
    (h : (extract_text_from_xml today fs path outdir store).1 = some (td, out)) :
    td.metrics.word_count = (td.sections.map SectionInfo.word_count).sum ∧
    td.metrics.section_count = td.sections.length ∧
    (td.sections = [] → td.metrics.word_count = 0 ∧ td.metrics.section_count = 0) := by
  unfold extract_text_from_xml at h
  split at h
  · simp at h
  · split at h
    · simp at h
    · split at h
      · simp at h
      · rename_i sfile file hfs snum tn hnum sroot root hp
        simp only [Option.some.injEq, Prod.mk.injEq] at h
        obtain ⟨htd, -⟩ := h
        subst htd
        obtain ⟨h1, h2⟩ := parseTitleXml_metrics today tn path root
        refine ⟨h1, h2, fun hnil => ?_⟩
        rw [hnil] at h1 h2
        simp at h1 h2
        exact ⟨h1, h2⟩

/-- Witness for C2: the cached unit-7 document has no sections, parses
successfully, and gets zero word and section counts. -/
theorem parsed_unit_metrics_invariant_witness :
    (extract_text_from_xml "2026-10-12" fsZero "data/xml/title-7.xml" "data/processed" []).1
      = some (tdZero, "data/processed/title-7.json") ∧
    tdZero.sections = [] ∧
    tdZero.metrics.word_count = 0 ∧ tdZero.metrics.section_count = 0 := by
  refine ⟨rfl, rfl, ?_⟩
  exact (parsed_unit_metrics_invariant "2026-10-12" fsZero "data/xml/title-7.xml"
    "data/processed" [] tdZero "data/processed/title-7.json" rfl).2.2 rfl

/-- Claim C10 (amended): the parser takes the unit number from the file
NAME alone — a missing file fails, a basename without the
`title-<digits>.xml` PREFIX fails, and on success the unit number is the
one captured from the basename.  (The code uses `re.match`, a prefix
match: trailing garbage after `.xml` is accepted, which is the one
correction to the claim.) -/
theorem unit_number_from_filename
    (today : String) (fs : FS) (path outdir : String) (store : Store) :
    (fsLookup fs path = none → (extract_text_from_xml today fs path outdir store).1 = none) ∧
    (titleNumOfFileName (basenameOf path) = none →
      (extract_text_from_xml today fs path outdir store).1 = none) ∧
    (∀ td out, (extract_text_from_xml today fs path outdir store).1 = some (td, out) →
      titleNumOfFileName (basenameOf path) = some td.number) := by
  refine ⟨fun hfs => ?_, fun hnum => ?_, fun td out h => ?_⟩
  · unfold extract_text_from_xml
    rw [hfs]
  · unfold extract_text_from_xml
    cases hfs : fsLookup fs path with
    | none => rfl
    | some file => rw [hnum]
  · unfold extract_text_from_xml at h
    split at h
    · simp at h
    · split at h
      · simp at h
      · split at h
        · simp at h
        · rename_i sfile file hfs snum tn hnum sroot root hp
          simp only [Option.some.injEq, Prod.mk.injEq] at h
          obtain ⟨htd, -⟩ := h
          subst htd
          rw [hnum, parseTitleXml_number]

/-- Witness for C10: a non-matching basename and a missing file both
fail; the cached unit-7 file succeeds with the number from its name. -/
theorem unit_number_from_filename_witness :
    (extract_text_from_xml "2026-10-12" fsZero "data/xml/title-x.xml" "o" []).1 = none ∧
    (extract_text_from_xml "2026-10-12" [] "data/xml/title-7.xml" "o" []).1 = none ∧
    titleNumOfFileName (basenameOf "data/xml/title-7.xml") = some tdZero.number := by
  refine ⟨?_, ?_, ?_⟩
  · exact (unit_number_from_filename "2026-10-12" fsZero "data/xml/title-x.xml" "o" []).2.1 rfl
  · exact (unit_number_from_filename "2026-10-12" [] "data/xml/title-7.xml" "o" []).1 rfl
  · exact (unit_number_from_filename "2026-10-12" fsZero "data/xml/title-7.xml"
      "data/processed" []).2.2 tdZero "data/processed/title-7.json" rfl

/-- Counterexample to C10 as stated: the basename `title-3.xmlextra` does
NOT match the pattern `title-<digits>.xml`, yet the parse of its
well-formed XML succeeds (with unit number 3) instead of failing —
`re.match` only anchors at the start. -/
theorem filename_loose_suffix_accepted :
    claimFileNameMatches (basenameOf "data/title-3.xmlextra") = false ∧
    (extract_text_from_xml "2026-10-12" fsLoose "data/title-3.xmlextra" "out" []).1
      = some (tdLoose, "out/title-3.json") ∧
    tdLoose.number = 3 := by
  exact ⟨by decide, rfl, rfl⟩

/-- Membership in a first-seen-dedup fold. -/
theorem foldl_insertNew_mem : ∀ (l acc : List String) (a : String),
    (a ∈ l.foldl insertNew acc ↔ a ∈ acc ∨ a ∈ l)
  | [], acc, a => by simp
  | b :: rest, acc, a => by
    have ih := foldl_insertNew_mem rest (insertNew acc b) a
    simp only [List.foldl_cons, List.mem_cons] at ih ⊢
    rw [ih]
    unfold insertNew
    split
    · rename_i hb
      constructor
      · rintro (h | h)
        · exact Or.inl h
        · exact Or.inr (Or.inr h)
      · rintro (h | h | h)
        · exact Or.inl h
        · exact Or.inl (h ▸ hb)
        · exact Or.inr h
    · simp only [List.mem_append, List.mem_singleton]
      tauto

/-- A first-seen-dedup fold preserves freedom from duplicates. -/
theorem foldl_insertNew_nodup : ∀ (l acc : List String), acc.Nodup →
    (l.foldl insertNew acc).Nodup
  | [], _, h => h
  | b :: rest, acc, h => by
    apply foldl_insertNew_nodup rest
    unfold insertNew
    split
    · exact h
    · rename_i hb
      rw [List.nodup_append]
      exact ⟨h, List.nodup_singleton b, by simpa using hb⟩

/-- The chapter-loop agency accumulation is exactly a first-seen-dedup
fold over the non-empty agency names of the chapters, in document
order. -/
theorem foldl_addChapterAgency : ∀ (elems : List Xml) (acc : List String),
    elems.foldl addChapterAgency acc =
      ((elems.filterMap agencyNameOfChapter).filter (fun a => a ≠ "")).foldl insertNew acc
  | [], _ => rfl
  | ch :: rest, acc => by
    have ih := foldl_addChapterAgency rest
    cases hm : agencyNameOfChapter ch with
    | none => simp [addChapterAgency, hm, ih]
    | some nm =>
      by_cases he : nm = ""
      · subst he
        simp [addChapterAgency, hm, ih]
      · by_cases hc : nm ∈ acc
        · have hcc : acc.contains nm = true := by simpa using hc
          simp [addChapterAgency, hm, ih, he, insertNew, hc, hcc]
        · have hcc : acc.contains nm = false := by simpa using hc
          simp [addChapterAgency, hm, ih, he, insertNew, hc, hcc]

/-- Claim C6 (amended): an agency name found nested under a chapter-level
element is added to the unit-level agency list — deduplicated, in
first-seen document order — but it is NOT attached to the chapter record
(the chapter record has only number, name, identifier and parts). -/
theorem agencies_dedup_first_seen (today : String) (n : Nat) (path : String) (root : Xml) :
    (parseTitleXml today n path root).agencies =
      firstSeenDedup (((findAllDesc root (fun e => e.tag == "DIV5")).filterMap
        agencyNameOfChapter).filter (fun a => a ≠ "")) ∧
    (parseTitleXml today n path root).agencies.Nodup ∧
    (∀ a, a ∈ (parseTitleXml today n path root).agencies ↔
      (a ≠ "" ∧ a ∈ (findAllDesc root (fun e => e.tag == "DIV5")).filterMap
        agencyNameOfChapter)) ∧
    (parseTitleXml today n path root).chapters =
      (findAllDesc root (fun e => e.tag == "DIV5")).map chapterInfoOf := by
  have hag : (parseTitleXml today n path root).agencies =
      (findAllDesc root (fun e => e.tag == "DIV5")).foldl addChapterAgency [] := by
    simp [parseTitleXml, sectionsFold_eq]
  have hch : (parseTitleXml today n path root).chapters =
      (findAllDesc root (fun e => e.tag == "DIV5")).map chapterInfoOf := by
    simp [parseTitleXml, sectionsFold_eq]
  rw [hag, foldl_addChapterAgency]
  refine ⟨rfl, foldl_insertNew_nodup _ _ (by simp), fun a => ?_, hch⟩
  rw [foldl_insertNew_mem]
  simp only [List.not_mem_nil, false_or, List.mem_filter]
  constructor
  · rintro ⟨hm, hp⟩
    exact ⟨by simpa using hp, hm⟩
  · rintro ⟨hp, hm⟩
    exact ⟨hm, by simpa using hp⟩

/-- Claim C8: readability on any input shorter than 100 characters
(including the empty text) returns the documented zero/default result
without invoking the external scoring library; the scorer is invoked
exactly when the input has at least 100 characters. -/
theorem readability_short_input_short_circuits
    (scorer : String → Except Unit ReadabilityScores) (text : String) :
    (text.length < 100 → calculate_readability scorer text = (zeroScores, false)) ∧
    ((calculate_readability scorer text).2 = true ↔ 100 ≤ text.length) := by
  unfold calculate_readability
  by_cases hlen : text.length < 100
  · have hc : (text = "" || decide (text.length < 100)) = true := by
      simp [hlen]
    rw [hc]
    simp [hlen]
  · have he : ¬ text = "" := by
      intro h
      subst h
      simp at hlen
    have hc : (text = "" || decide (text.length < 100)) = false := by
      simp [hlen, he]
    rw [hc]
    simp only [Bool.false_eq_true, if_false]
    refine ⟨fun h => absurd h hlen, ?_⟩
    cases scorer (clean_text text) <;> simp <;> omega

/-- Witness for C8: a 12-character input yields the zero scores without a
scorer call, even under a scorer that would return nonzero scores. -/
theorem readability_short_input_witness :
    calculate_readability scorerConst "Short text.." = (zeroScores, false) :=
  (readability_short_input_short_circuits scorerConst "Short text..").1 (by decide)

/-- Claim C4: with force off (skip_existing on) and a cached artifact of
nonzero size at the destination, the fetch returns success immediately
with that artifact's byte size, the state — including the network call
counter — is untouched, and a second identical run returns the same
result. -/
theorem fetch_cache_hit_skips_network
    (net : Nat → Nat → Option XFile) (tn : Nat) (outdir : String)
    (st : IoState) (f : XFile)
    (hf : fsLookup st.fs (outdir ++ "/title-" ++ toString tn ++ ".xml") = some f)
    (hsz : 0 < f.size) :
    download_title net tn outdir true st =
      ((true, outdir ++ "/title-" ++ toString tn ++ ".xml", f.size), st) ∧
    download_title net tn outdir true (download_title net tn outdir true st).2 =
      download_title net tn outdir true st := by
  have h1 : download_title net tn outdir true st =
      ((true, outdir ++ "/title-" ++ toString tn ++ ".xml", f.size), st) := by
    unfold download_title
    simp only [if_true]
    rw [hf]
    simp [hsz]
  exact ⟨h1, by rw [h1]; exact h1⟩

/-- Witness for C4: the cached unit-7 artifact of 123 bytes short-circuits
even under a network that always fails, twice in a row. -/
theorem fetch_cache_hit_witness :
    download_title netNever 7 "cache" true stCache =
      ((true, "cache/title-7.xml", 123), stCache) ∧
    download_title netNever 7 "cache" true
        (download_title netNever 7 "cache" true stCache).2 =
      download_title netNever 7 "cache" true stCache :=
  fetch_cache_hit_skips_network netNever 7 "cache" stCache
    { size := 123, parsed := some emptyDoc } rfl (by decide)

/-- Shape of a `year4` capture. -/
theorem year4_shape (cs y : List Char) (h : year4 cs = some y) : digits4Str y := by
  unfold year4 at h
  split at h
  · split at h
    · cases h
      rename_i hd
      simp only [Bool.and_eq_true] at hd
      refine ⟨rfl, ?_⟩
      simp [List.all_cons, hd.1.1.1, hd.1.1.2, hd.1.2, hd.2]
    · cases h
  · cases h

/-- Shape of a `spYear` capture. -/
theorem spYear_shape (cs y : List Char) (h : spYear cs = some y) : digits4Str y := by
  unfold spYear at h
  split at h
  · cases h
  · exact year4_shape _ _ h

/-- Shape of a `commaSpYear` capture. -/
theorem commaSpYear_shape (cs y : List Char) (h : commaSpYear cs = some y) : digits4Str y := by
  unfold commaSpYear at h
  split at h
  · split at h
    · rename_i hy
      cases h
      exact spYear_shape _ _ hy
    · exact spYear_shape _ _ h
  · exact spYear_shape _ _ h

/-- Shape of a `dayThenYear` capture. -/
theorem dayThenYear_shape (cs d y : List Char) (h : dayThenYear cs = some (d, y)) :
    digits12Str d ∧ digits4Str y := by
  unfold dayThenYear at h
  split at h
  · split at h
    · split at h
      · split at h
        · rename_i hy
          cases h
          refine ⟨⟨Or.inr rfl, by simp_all⟩, commaSpYear_shape _ _ hy⟩
        · split at h
          · rename_i hy
            cases h
            refine ⟨⟨Or.inl rfl, by simp_all⟩, commaSpYear_shape _ _ hy⟩
          · cases h
      · split at h
        · rename_i hy
          cases h
          refine ⟨⟨Or.inl rfl, by simp_all⟩, commaSpYear_shape _ _ hy⟩
        · cases h
    · cases h
  · cases h

/-- Shape of a `tryMonth` capture. -/
theorem tryMonth_shape (ad : Bool) (nm : String) (cs : List Char) (d y : List Char)
    (h : tryMonth ad nm cs = some (d, y)) : digits12Str d ∧ digits4Str y := by
  unfold tryMonth at h
  split at h
  · cases ad with
    | true =>
      simp only [if_true] at h
      split at h
      · cases h
      · exact dayThenYear_shape _ _ _ h
    | false =>
      simp only [Bool.false_eq_true, if_false] at h
      split at h
      · cases h
      · exact dayThenYear_shape _ _ _ h
  · cases h

/-- Shape of a `monthPatAt` capture: the name comes from the table. -/
theorem monthPatAt_shape (ad : Bool) (names : List (String × String)) (cs : List Char)
    (nm : String) (d y : List Char) (h : monthPatAt ad names cs = some (nm, d, y)) :
    nm ∈ names.map Prod.fst ∧ digits12Str d ∧ digits4Str y := by
  induction names with
  | nil => cases h
  | cons p rest ih =>
    unfold monthPatAt at h
    split at h
    · cases h
      rename_i hm
      exact ⟨by simp, tryMonth_shape _ _ _ _ _ hm⟩
    · obtain ⟨h1, h2⟩ := ih h
      exact ⟨by simp [h1], h2⟩

/-- A successful search comes from a successful position match. -/
theorem searchFrom_shape {β : Type} (matchAt : List Char → Option β) :
    ∀ (cs : List Char) (r : β), searchFrom matchAt cs = some r →
      ∃ cs', matchAt cs' = some r
  | [], _, h => by cases h
  | c :: cs, r, h => by
    unfold searchFrom at h
    split at h
    · cases h
      rename_i hm
      exact ⟨c :: cs, hm⟩
    · exact searchFrom_shape matchAt cs r h

/-- Shape of a `digits12Sep` capture. -/
theorem digits12Sep_shape (sep : Char → Bool) (cs d rest : List Char)
    (h : digits12Sep sep cs = some (d, rest)) : digits12Str d := by
  unfold digits12Sep at h
  split at h
  · split at h
    · split at h
      · split at h
        · split at h
          · cases h
            refine ⟨Or.inr rfl, by simp_all⟩
          · cases h
        · cases h
      · split at h
        · cases h
          refine ⟨Or.inl rfl, by simp_all⟩
        · cases h
    · cases h
  · cases h

/-- Shape of a `pat4At` capture. -/
theorem pat4At_shape (cs m d y : List Char) (h : pat4At cs = some (m, d, y)) :
    digits12Str m ∧ digits12Str d ∧ digits4Str y := by
  unfold pat4At at h
  split at h
  · rename_i m' rest hm
    split at h
    · rename_i d' rest2 hd
      split at h
      · cases h
        rename_i hy
        exact ⟨digits12Sep_shape _ _ _ _ hm, digits12Sep_shape _ _ _ _ hd,
          year4_shape _ _ hy⟩
      · cases h
    · cases h
  · cases h

/-- A lookup hit names a pair of the table. -/
theorem lookup_mem_pair {β : Type} (l : List (String × β)) (a : String) (b : β)
    (h : l.lookup a = some b) : (a, b) ∈ l := by
  induction l with
  | nil => cases h
  | cons p rest ih =>
    unfold List.lookup at h
    split at h
    · cases h
      rename_i hb
      have ha : a = p.1 := by simpa using hb
      subst ha
      exact List.mem_cons_self _ _
    · right
      exact ih h

/-- A key of the table is found by lookup. -/
theorem lookup_isSome_of_mem {β : Type} (l : List (String × β)) (a : String)
    (h : a ∈ l.map Prod.fst) : (l.lookup a).isSome = true := by
  induction l with
  | nil => simp at h
  | cons p rest ih =>
    simp only [List.map_cons, List.mem_cons] at h
    unfold List.lookup
    split
    · rfl
    · rename_i hb
      apply ih
      rcases h with h | h
      · exfalso
        apply absurd hb
        simp [h]
      · exact h

/-- No all-digit string is a key of a table whose keys all contain a
non-digit. -/
theorem lookup_digits_none {β : Type} (l : List (String × β))
    (hk : ∀ p ∈ l, p.1.data.all Char.isDigit = false)
    (m : List Char) (hm : m.all Char.isDigit = true) :
    (l.lookup (⟨m⟩ : String)) = none := by
  cases hl : List.lookup (⟨m⟩ : String) l with
  | none => rfl
  | some v =>
    exfalso
    have hmem := lookup_mem_pair l ⟨m⟩ v hl
    have hfalse := hk _ hmem
    simp only at hfalse
    rw [hm] at hfalse
    cases hfalse

/-- `zfill2` of a one- or two-digit string is a two-digit string. -/
theorem zfill2_shape (d : List Char) (h : digits12Str d) :
    (zfill2 (⟨d⟩ : String)).data.length = 2 ∧
    (zfill2 (⟨d⟩ : String)).data.all Char.isDigit = true := by
  obtain ⟨hl, hd⟩ := h
  unfold zfill2
  rcases hl with hl | hl
  · have : ¬ ((⟨d⟩ : String).data.length ≥ 2) := by simp [hl]
    rw [if_neg this]
    match d, hl with
    | [c], _ =>
      simp at hd
      simp [hd]
  · rw [if_pos (by simp [hl])]
    exact ⟨hl, hd⟩

/-- A list of length 2 is a literal pair. -/
theorem exists_list_len2 {α : Type} (l : List α) (h : l.length = 2) :
    ∃ a b, l = [a, b] := by
  match l with
  | [a, b] => exact ⟨a, b, rfl⟩
  | [] => simp at h
  | [a] => simp at h
  | a :: b :: c :: t => simp only [List.length_cons] at h; omega

/-- A list of length 4 is a literal quadruple. -/
theorem exists_list_len4 {α : Type} (l : List α) (h : l.length = 4) :
    ∃ a b c d, l = [a, b, c, d] := by
  match l with
  | [a, b, c, d] => exact ⟨a, b, c, d, rfl⟩
  | [] => simp at h
  | [a] => simp at h
  | [a, b] => simp at h
  | [a, b, c] => simp at h
  | a :: b :: c :: d :: e :: t => simp only [List.length_cons] at h; omega

/-- Every month-number value of the full-name table is two digits. -/
theorem fullMonths_vals : ∀ p ∈ fullMonths,
    p.2.data.length = 2 ∧ p.2.data.all Char.isDigit = true := by decide

/-- Every month-number value of the abbreviated table is two digits. -/
theorem abbrevMonths_vals : ∀ p ∈ abbrevMonths,
    p.2.data.length = 2 ∧ p.2.data.all Char.isDigit = true := by decide

/-- No key of the full-name table is an all-digit string. -/
theorem fullMonths_keys_not_digits : ∀ p ∈ fullMonths,
    p.1.data.all Char.isDigit = false := by decide

/-- No key of the abbreviated table is an all-digit string. -/
theorem abbrevMonths_keys_not_digits : ∀ p ∈ abbrevMonths,
    p.1.data.all Char.isDigit = false := by decide

/-- Gluing a 4-digit year, a 2-digit month and a 2-digit day with dashes
gives a string of the exact padded `YYYY-MM-DD` shape. -/
theorem isPaddedIso_build (y mm dd : String)
    (hy1 : y.data.length = 4) (hy2 : y.data.all Char.isDigit = true)
    (hm1 : mm.data.length = 2) (hm2 : mm.data.all Char.isDigit = true)
    (hd1 : dd.data.length = 2) (hd2 : dd.data.all Char.isDigit = true) :
    isPaddedIso (y ++ "-" ++ mm ++ "-" ++ dd) = true := by
  obtain ⟨a1, a2, a3, a4, hy⟩ := exists_list_len4 y.data hy1
  obtain ⟨m1, m2, hm⟩ := exists_list_len2 mm.data hm1
  obtain ⟨d1, d2, hd⟩ := exists_list_len2 dd.data hd1
  rw [hy] at hy2
  rw [hm] at hm2
  rw [hd] at hd2
  unfold isPaddedIso
  rw [String.data_append, String.data_append, String.data_append, String.data_append,
    hy, hm, hd]
  simp only [List.all_cons, List.all_nil, Bool.and_eq_true] at hy2 hm2 hd2
  simp_all

/-- Shape of a `searchPat1` result: a single verbatim group. -/
theorem searchPat1_shape (cs : List Char) (gs : List String)
    (h : searchPat1 cs = some gs) : ∃ g : String, gs = [g] := by
  unfold searchPat1 at h
  rw [Option.map_eq_some'] at h
  obtain ⟨g, -, hg⟩ := h
  exact ⟨⟨g⟩, hg.symm⟩

/-- Shape of a `searchPat2` result: a table month name, a 1-2 digit day
and a 4-digit year. -/
theorem searchPat2_shape (cs : List Char) (gs : List String)
    (h : searchPat2 cs = some gs) :
    ∃ (nm : String) (d y : List Char), gs = [nm, ⟨d⟩, ⟨y⟩] ∧
      nm ∈ fullMonths.map Prod.fst ∧ digits12Str d ∧ digits4Str y := by
  unfold searchPat2 at h
  rw [Option.map_eq_some'] at h
  obtain ⟨r, hr, hg⟩ := h
  obtain ⟨cs', hcs'⟩ := searchFrom_shape _ cs r hr
  obtain ⟨hmem, hd, hy⟩ := monthPatAt_shape false fullMonths cs' r.1 r.2.1 r.2.2 (by
    rw [hcs'])
  exact ⟨r.1, r.2.1, r.2.2, hg.symm, hmem, hd, hy⟩

/-- Shape of a `searchPat3` result. -/
theorem searchPat3_shape (cs : List Char) (gs : List String)
    (h : searchPat3 cs = some gs) :
    ∃ (nm : String) (d y : List Char), gs = [nm, ⟨d⟩, ⟨y⟩] ∧
      nm ∈ abbrevMonths.map Prod.fst ∧ digits12Str d ∧ digits4Str y := by
  unfold searchPat3 at h
  rw [Option.map_eq_some'] at h
  obtain ⟨r, hr, hg⟩ := h
  obtain ⟨cs', hcs'⟩ := searchFrom_shape _ cs r hr
  obtain ⟨hmem, hd, hy⟩ := monthPatAt_shape true abbrevMonths cs' r.1 r.2.1 r.2.2 (by
    rw [hcs'])
  exact ⟨r.1, r.2.1, r.2.2, hg.symm, hmem, hd, hy⟩

/-- Shape of a `searchPat4` result: three digit groups. -/
theorem searchPat4_shape (cs : List Char) (gs : List String)
    (h : searchPat4 cs = some gs) :
    ∃ (m d y : List Char), gs = [⟨m⟩, ⟨d⟩, ⟨y⟩] ∧
      digits12Str m ∧ digits12Str d ∧ digits4Str y := by
  unfold searchPat4 at h
  rw [Option.map_eq_some'] at h
  obtain ⟨r, hr, hg⟩ := h
  obtain ⟨cs', hcs'⟩ := searchFrom_shape _ cs r hr
  obtain ⟨hm, hd, hy⟩ := pat4At_shape cs' r.1 r.2.1 r.2.2 (by rw [hcs'])
  exact ⟨r.1, r.2.1, r.2.2, hg.symm, hm, hd, hy⟩

/-- `interpretGroups` on a singleton returns the group verbatim. -/
theorem interpretGroups_one (g : String) : interpretGroups [g] = some g := rfl

/-- `interpretGroups` on a triple always succeeds. -/
theorem interpretGroups_three_isSome (a b c : String) :
    (interpretGroups [a, b, c]).isSome = true := by
  simp only [interpretGroups]
  split
  · rfl
  · split <;> rfl

/-- A month-name triple is normalized to padded ISO form. -/
theorem interpretGroups_month_padded (nm : String) (d y : List Char)
    (hmem : nm ∈ fullMonths.map Prod.fst ∨ nm ∈ abbrevMonths.map Prod.fst)
    (hd : digits12Str d) (hy : digits4Str y) :
    ∃ r, interpretGroups [nm, ⟨d⟩, ⟨y⟩] = some r ∧ isPaddedIso r = true := by
  obtain ⟨hz1, hz2⟩ := zfill2_shape d hd
  by_cases hfull : (fullMonths.lookup nm).isSome = true
  · obtain ⟨v, hv⟩ := Option.isSome_iff_exists.mp hfull
    have hvp := fullMonths_vals _ (lookup_mem_pair _ _ _ hv)
    refine ⟨⟨y⟩ ++ "-" ++ v ++ "-" ++ zfill2 ⟨d⟩, ?_, ?_⟩
    · simp [interpretGroups, hv]
    · exact isPaddedIso_build _ _ _ hy.1 hy.2 hvp.1 hvp.2 hz1 hz2
  · have habbr : nm ∈ abbrevMonths.map Prod.fst := by
      rcases hmem with hmem | hmem
      · exact absurd (lookup_isSome_of_mem fullMonths nm hmem) hfull
      · exact hmem
    have habbrS := lookup_isSome_of_mem abbrevMonths nm habbr
    obtain ⟨v, hv⟩ := Option.isSome_iff_exists.mp habbrS
    have hvp := abbrevMonths_vals _ (lookup_mem_pair _ _ _ hv)
    refine ⟨⟨y⟩ ++ "-" ++ v ++ "-" ++ zfill2 ⟨d⟩, ?_, ?_⟩
    · simp [interpretGroups, hv, hfull]
    · exact isPaddedIso_build _ _ _ hy.1 hy.2 hvp.1 hvp.2 hz1 hz2

/-- An all-numeric triple is normalized to padded ISO form. -/
theorem interpretGroups_numeric_padded (m d y : List Char)
    (hm : digits12Str m) (hd : digits12Str d) (hy : digits4Str y) :
    ∃ r, interpretGroups [⟨m⟩, ⟨d⟩, ⟨y⟩] = some r ∧ isPaddedIso r = true := by
  have hfull : fullMonths.lookup (⟨m⟩ : String) = none :=
    lookup_digits_none _ fullMonths_keys_not_digits m hm.2
  have habbr : abbrevMonths.lookup (⟨m⟩ : String) = none :=
    lookup_digits_none _ abbrevMonths_keys_not_digits m hm.2
  obtain ⟨hm1, hm2⟩ := zfill2_shape m hm
  obtain ⟨hd1, hd2⟩ := zfill2_shape d hd
  refine ⟨⟨y⟩ ++ "-" ++ zfill2 ⟨m⟩ ++ "-" ++ zfill2 ⟨d⟩, ?_, ?_⟩
  · simp only [interpretGroups, hfull, habbr, Option.isSome_none, Bool.false_eq_true,
      if_false]
  · exact isPaddedIso_build _ _ _ hy.1 hy.2 hm1 hm2 hd1 hd2

/-- Claim C5 (amended): date extraction tries the four formats in order
(ISO, full month name, abbreviated month name, slash/dash numeric) and
the first successful match wins; no match leaves the result unset;
"March 3, 2021" gives "2021-03-03" and "03/04/2021" gives "2021-03-04";
month-name and numeric matches are normalized to zero-padded ISO
`YYYY-MM-DD` — but a match of the ISO pattern itself is returned
VERBATIM, so one-digit months or days (for example "2021-3-3") are not
re-padded. -/
theorem extract_date_spec :
    (extract_date "March 3, 2021" = some "2021-03-03") ∧
    (extract_date "03/04/2021" = some "2021-03-04") ∧
    (∀ s : String, extract_date s = none ↔
      (searchPat1 s.data = none ∧ searchPat2 s.data = none ∧
       searchPat3 s.data = none ∧ searchPat4 s.data = none)) ∧
    (∀ (s : String) (g : String), searchPat1 s.data = some [g] →
      extract_date s = some g) ∧
    (∀ (s : String) (r : String), extract_date s = some r →
      searchPat1 s.data = some [r] ∨ isPaddedIso r = true) := by
  refine ⟨by decide, by decide, fun s => ?_, fun s g h1 => ?_, fun s r h => ?_⟩
  · by_cases hs : s = ""
    · subst hs
      exact iff_of_true rfl (by decide)
    · unfold extract_date
      rw [if_neg hs]
      cases h1 : searchPat1 s.data with
      | some gs =>
        obtain ⟨g, rfl⟩ := searchPat1_shape _ _ h1
        simp [interpretGroups_one]
      | none =>
      cases h2 : searchPat2 s.data with
      | some gs =>
        obtain ⟨nm, d, y, rfl, -, -, -⟩ := searchPat2_shape _ _ h2
        have hsome := interpretGroups_three_isSome nm ⟨d⟩ ⟨y⟩
        constructor
        · intro hcon
          have hred : interpretGroups [nm, ⟨d⟩, ⟨y⟩] = none := hcon
          rw [hred] at hsome
          cases hsome
        · rintro ⟨-, hcon, -, -⟩
          cases hcon
      | none =>
      cases h3 : searchPat3 s.data with
      | some gs =>
        obtain ⟨nm, d, y, rfl, -, -, -⟩ := searchPat3_shape _ _ h3
        have hsome := interpretGroups_three_isSome nm ⟨d⟩ ⟨y⟩
        constructor
        · intro hcon
          have hred : interpretGroups [nm, ⟨d⟩, ⟨y⟩] = none := hcon
          rw [hred] at hsome
          cases hsome
        · rintro ⟨-, -, hcon, -⟩
          cases hcon
      | none =>
      cases h4 : searchPat4 s.data with
      | some gs =>
        obtain ⟨m, d, y, rfl, -, -, -⟩ := searchPat4_shape _ _ h4
        have hsome := interpretGroups_three_isSome ⟨m⟩ ⟨d⟩ ⟨y⟩
        constructor
        · intro hcon
          have hred : interpretGroups [⟨m⟩, ⟨d⟩, ⟨y⟩] = none := hcon
          rw [hred] at hsome
          cases hsome
        · rintro ⟨-, -, -, hcon⟩
          cases hcon
      | none => simp
  · have hs : ¬ s = "" := by
      intro hcon
      subst hcon
      have : searchPat1 ("" : String).data = none := by decide
      rw [this] at h1
      cases h1
    unfold extract_date
    rw [if_neg hs, h1]
    exact interpretGroups_one g
  · by_cases hs : s = ""
    · subst hs
      cases h
    · unfold extract_date at h
      rw [if_neg hs] at h
      cases h1 : searchPat1 s.data with
      | some gs =>
        rw [h1] at h
        obtain ⟨g, rfl⟩ := searchPat1_shape _ _ h1
        have hh : interpretGroups [g] = some r := h
        rw [interpretGroups_one] at hh
        cases hh
        exact Or.inl rfl
      | none =>
      rw [h1] at h
      cases h2 : searchPat2 s.data with
      | some gs =>
        rw [h2] at h
        obtain ⟨nm, d, y, rfl, hmem, hd, hy⟩ := searchPat2_shape _ _ h2
        obtain ⟨r', hr', hp⟩ := interpretGroups_month_padded nm d y (Or.inl hmem) hd hy
        have hh : interpretGroups [nm, ⟨d⟩, ⟨y⟩] = some r := h
        rw [hr'] at hh
        cases hh
        exact Or.inr hp
      | none =>
      rw [h2] at h
      cases h3 : searchPat3 s.data with
      | some gs =>
        rw [h3] at h
        obtain ⟨nm, d, y, rfl, hmem, hd, hy⟩ := searchPat3_shape _ _ h3
        obtain ⟨r', hr', hp⟩ := interpretGroups_month_padded nm d y (Or.inr hmem) hd hy
        have hh : interpretGroups [nm, ⟨d⟩, ⟨y⟩] = some r := h
        rw [hr'] at hh
        cases hh
        exact Or.inr hp
      | none =>
      rw [h3] at h
      cases h4 : searchPat4 s.data with
      | some gs =>
        rw [h4] at h
        obtain ⟨m, d, y, rfl, hm, hd, hy⟩ := searchPat4_shape _ _ h4
        obtain ⟨r', hr', hp⟩ := interpretGroups_numeric_padded m d y hm hd hy
        have hh : interpretGroups [⟨m⟩, ⟨d⟩, ⟨y⟩] = some r := h
        rw [hr'] at hh
        cases hh
        exact Or.inr hp
      | none =>
        rw [h4] at h
        cases h

/-- Witness for C5 (amended): a no-date text yields `none`, via the
characterization applied at a concrete input. -/
theorem extract_date_spec_witness :
    extract_date "no date here" = none ∧ extract_date "May 1, 2021" = some "2021-05-01" := by
  constructor
  · exact (extract_date_spec.2.2.1 "no date here").mpr (by decide)
  · decide

/-- Counterexample to C5 as stated: the ISO-pattern branch returns its
match verbatim — "2021-3-3" comes back as "2021-3-3", which is NOT of the
normalized `YYYY-MM-DD` form the claim promises. -/
theorem extract_date_iso_not_padded :
    extract_date "2021-3-3" = some "2021-3-3" ∧ isPaddedIso "2021-3-3" = false := by
  exact ⟨by decide, by decide⟩

/-- The titles component of the collection fold: per-unit projections
appended in iteration order. -/
theorem summaryFold_titles : ∀ (results : List (Nat × TitleData)) (init : Summary),
    (results.foldl summaryStep init).titles =
      init.titles ++ results.map (fun e =>
        { number := e.1, name := e.2.name, agencies := e.2.agencies,
          dates := e.2.dates, metrics := e.2.metrics : TitleSummary })
  | [], init => by simp
  | e :: rest, init => by
    rw [List.foldl_cons, summaryFold_titles rest]
    simp [summaryStep]

/-- The metrics component of the collection fold. -/
theorem summaryFold_metrics : ∀ (results : List (Nat × TitleData)) (init : Summary),
    (results.foldl summaryStep init).total_metrics =
      results.foldl (fun m e => addMetrics m e.2.metrics) init.total_metrics
  | [], _ => rfl
  | e :: rest, init => by
    rw [List.foldl_cons, List.foldl_cons, summaryFold_metrics rest]
    congr 1

/-- The agency component of the collection fold. -/
theorem summaryFold_agencies : ∀ (results : List (Nat × TitleData)) (init : Summary),
    (results.foldl summaryStep init).agencies =
      results.foldl (fun m e => e.2.agencies.foldl bumpAgency m) init.agencies
  | [], _ => rfl
  | e :: rest, init => by
    rw [List.foldl_cons, List.foldl_cons, summaryFold_agencies rest]
    congr 1

/-- Metric accumulation is an elementwise sum. -/
theorem foldl_addMetrics : ∀ (results : List (Nat × TitleData)) (m0 : Metrics),
    results.foldl (fun m e => addMetrics m e.2.metrics) m0 =
      { word_count := m0.word_count + (results.map (fun e => e.2.metrics.word_count)).sum
        section_count :=
          m0.section_count + (results.map (fun e => e.2.metrics.section_count)).sum
        paragraph_count :=
          m0.paragraph_count + (results.map (fun e => e.2.metrics.paragraph_count)).sum
        chapter_count :=
          m0.chapter_count + (results.map (fun e => e.2.metrics.chapter_count)).sum
        part_count := m0.part_count + (results.map (fun e => e.2.metrics.part_count)).sum }
  | [], m0 => by simp
  | e :: rest, m0 => by
    rw [List.foldl_cons, foldl_addMetrics rest]
    simp only [addMetrics, List.map_cons, List.sum_cons, Metrics.mk.injEq]
    exact ⟨by omega, by omega, by omega, by omega, by omega⟩

/-- Lookup through the in-place bump of the first binding for a key:
the bumped key reads one higher (when present at all), others are
untouched. -/
theorem lookup_updateFirst_bump : ∀ (m : List (String × Nat)) (b a : String),
    (updateFirst (fun kv => kv.1 == b) (fun kv => (kv.1, kv.2 + 1)) m).lookup a =
      if a = b then (m.lookup a).map (fun c => c + 1) else m.lookup a
  | [], b, a => by
    by_cases hab : a = b <;> simp [updateFirst, hab]
  | (k, v) :: tl, b, a => by
    have ih := lookup_updateFirst_bump tl b a
    by_cases hkb : k = b
    · subst hkb
      have hkk : (k == k) = true := beq_self_eq_true k
      by_cases hak : a = k
      · subst hak
        simp [updateFirst, hkk, List.lookup_cons]
      · have hbeq : (a == k) = false := beq_eq_false_iff_ne.mpr hak
        simp [updateFirst, hkk, List.lookup_cons, hbeq, hak]
    · have hkbeq : (k == b) = false := beq_eq_false_iff_ne.mpr hkb
      by_cases hak : a = k
      · subst hak
        have hab : ¬ a = b := hkb
        have haa : (a == a) = true := beq_self_eq_true a
        simp [updateFirst, hkbeq, List.lookup_cons, haa, hab]
      · have hbeq : (a == k) = false := beq_eq_false_iff_ne.mpr hak
        by_cases hab : a = b
        · subst hab
          simp [updateFirst, hkbeq, List.lookup_cons, hbeq, ih]
        · simp [updateFirst, hkbeq, List.lookup_cons, hbeq, hab, ih]

/-- Lookup through appending a fresh binding with count one. -/
theorem lookup_append_one : ∀ (m : List (String × Nat)) (b a : String),
    (m ++ [(b, 1)]).lookup a =
      match m.lookup a with
      | some v => some v
      | none => if a = b then some 1 else none
  | [], b, a => by
    by_cases hab : a = b
    · subst hab
      simp [List.lookup_cons]
    · have hbeq : (a == b) = false := beq_eq_false_iff_ne.mpr hab
      simp [List.lookup_cons, hbeq, hab]
  | (k, v) :: tl, b, a => by
    have ih := lookup_append_one tl b a
    by_cases hak : a = k
    · subst hak
      simp [List.lookup_cons]
    · have hbeq : (a == k) = false := beq_eq_false_iff_ne.mpr hak
      simp only [List.cons_append, List.lookup_cons, hbeq, ih]

/-- One `defaultdict(int)` bump, described through lookup. -/
theorem bumpAgency_lookup (m : List (String × Nat)) (b a : String) :
    (bumpAgency m b).lookup a =
      if a = b then some (((m.lookup a).getD 0) + 1) else m.lookup a := by
  unfold bumpAgency
  by_cases hsome : (m.lookup b).isSome = true
  · rw [if_pos hsome, lookup_updateFirst_bump]
    by_cases hab : a = b
    · subst hab
      obtain ⟨v, hv⟩ := Option.isSome_iff_exists.mp hsome
      rw [hv]
      simp
    · simp [hab]
  · rw [if_neg hsome, lookup_append_one]
    by_cases hab : a = b
    · subst hab
      have : m.lookup a = none := by
        cases hl : m.lookup a
        · rfl
        · rw [hl] at hsome; simp at hsome
      rw [this]
      simp
    · cases hl : m.lookup a <;> simp [hab]

/-- Lookup after folding one unit's agency list: the count rises by the
list's occurrence count, presence spreads by membership. -/
theorem foldl_bumpAgency_lookup : ∀ (ns : List String) (m : List (String × Nat)) (a : String),
    (((ns.foldl bumpAgency m).lookup a).getD 0 = (m.lookup a).getD 0 + ns.count a) ∧
    (((ns.foldl bumpAgency m).lookup a).isSome = ((m.lookup a).isSome || ns.contains a))
  | [], m, a => by simp
  | b :: rest, m, a => by
    have ih := foldl_bumpAgency_lookup rest (bumpAgency m b) a
    rw [List.foldl_cons]
    have hb := bumpAgency_lookup m b a
    constructor
    · rw [ih.1, hb]
      by_cases hab : a = b
      · subst hab
        simp [List.count_cons]
        omega
      · have hbeq : (a == b) = false := beq_eq_false_iff_ne.mpr hab
        simp [hab, List.count_cons, hbeq]
    · rw [ih.2, hb]
      by_cases hab : a = b
      · subst hab
        simp [List.contains_cons]
      · have hbeq : (a == b) = false := beq_eq_false_iff_ne.mpr hab
        simp [hab, List.contains_cons, hbeq, Bool.or_assoc]

/-- Lookup after folding all units' agency lists. -/
theorem foldl_units_agencies_lookup :
    ∀ (results : List (Nat × TitleData)) (m0 : List (String × Nat)) (a : String),
    (((results.foldl (fun m e => e.2.agencies.foldl bumpAgency m) m0).lookup a).getD 0 =
      (m0.lookup a).getD 0 + (results.map (fun e => e.2.agencies.count a)).sum) ∧
    (((results.foldl (fun m e => e.2.agencies.foldl bumpAgency m) m0).lookup a).isSome =
      ((m0.lookup a).isSome || results.any (fun e => e.2.agencies.contains a)))
  | [], m0, a => by simp
  | e :: rest, m0, a => by
    have ihrest := foldl_units_agencies_lookup rest (e.2.agencies.foldl bumpAgency m0) a
    have hinner := foldl_bumpAgency_lookup e.2.agencies m0 a
    rw [List.foldl_cons]
    constructor
    · rw [ihrest.1, hinner.1, List.map_cons, List.sum_cons]
      omega
    · rw [ihrest.2, hinner.2, List.any_cons]
      simp [Bool.or_assoc]

/-- With duplicate-free per-unit lists, the occurrence total is the
number of units mentioning the agency. -/
theorem sum_count_eq_countP : ∀ (results : List (Nat × TitleData)) (a : String),
    (∀ e ∈ results, e.2.agencies.Nodup) →
    (results.map (fun e => e.2.agencies.count a)).sum =
      results.countP (fun e => e.2.agencies.contains a)
  | [], _, _ => rfl
  | e :: rest, a, h => by
    have ih := sum_count_eq_countP rest a (fun x hx => h x (by simp [hx]))
    have hnd := h e (by simp)
    rw [List.map_cons, List.sum_cons, List.countP_cons, ih]
    by_cases hmem : a ∈ e.2.agencies
    · have hc : e.2.agencies.count a = 1 := List.count_eq_one_of_mem hnd hmem
      have hcont : e.2.agencies.contains a = true := by simpa using hmem
      rw [hc, hcont]
      simp [Nat.add_comm]
    · have hc : e.2.agencies.count a = 0 := List.count_eq_zero_of_not_mem hmem
      have hcont : e.2.agencies.contains a = false := by simpa using hmem
      rw [hc, hcont]
      simp

/-- Membership in a stable insertion. -/
theorem mem_insertSorted (t a : TitleSummary) : ∀ (l : List TitleSummary),
    a ∈ insertSorted t l ↔ a = t ∨ a ∈ l
  | [] => by simp [insertSorted]
  | h :: rest => by
    have ih := mem_insertSorted t a rest
    unfold insertSorted
    split
    · simp only [List.mem_cons, ih]
      tauto
    · simp only [List.mem_cons]

/-- Stable insertion into a number-sorted list keeps it sorted. -/
theorem pairwise_insertSorted (t : TitleSummary) : ∀ (l : List TitleSummary),
    l.Pairwise (fun x y => x.number ≤ y.number) →
    (insertSorted t l).Pairwise (fun x y => x.number ≤ y.number)
  | [], _ => by simp [insertSorted]
  | h :: rest, hp => by
    rw [List.pairwise_cons] at hp
    unfold insertSorted
    split
    · rename_i hle
      rw [List.pairwise_cons]
      refine ⟨fun b hb => ?_, pairwise_insertSorted t rest hp.2⟩
      rcases (mem_insertSorted t b rest).mp hb with hb | hb
      · rw [hb]; exact hle
      · exact hp.1 b hb
    · rename_i hgt
      rw [List.pairwise_cons]
      refine ⟨fun b hb => ?_, List.pairwise_cons.mpr hp⟩
      rcases List.mem_cons.mp hb with hb | hb
      · rw [hb]; omega
      · have := hp.1 b hb
        omega

/-- Membership in the insertion-sort fold. -/
theorem mem_sortFold (a : TitleSummary) : ∀ (l acc : List TitleSummary),
    a ∈ l.foldl (fun acc t => insertSorted t acc) acc ↔ a ∈ acc ∨ a ∈ l
  | [], acc => by simp
  | t :: rest, acc => by
    rw [List.foldl_cons, mem_sortFold a rest, mem_insertSorted]
    simp only [List.mem_cons]
    tauto

/-- Membership in the sorted titles list. -/
theorem mem_sortByNumber {a : TitleSummary} {l : List TitleSummary} :
    a ∈ sortByNumber l ↔ a ∈ l := by
  unfold sortByNumber
  rw [mem_sortFold]
  simp

/-- The insertion-sort fold of a sorted accumulator is sorted. -/
theorem pairwise_sortFold : ∀ (l acc : List TitleSummary),
    acc.Pairwise (fun x y => x.number ≤ y.number) →
    (l.foldl (fun acc t => insertSorted t acc) acc).Pairwise
      (fun x y => x.number ≤ y.number)
  | [], _, h => h
  | t :: rest, acc, h => by
    rw [List.foldl_cons]
    exact pairwise_sortFold rest _ (pairwise_insertSorted t acc h)

/-- The sorted titles list is sorted by number ascending. -/
theorem sortByNumber_pairwise (l : List TitleSummary) :
    (sortByNumber l).Pairwise (fun x y => x.number ≤ y.number) :=
  pairwise_sortFold l [] (by simp)

/-- The sorted titles list has the same length. -/
theorem length_insertSorted (t : TitleSummary) : ∀ (l : List TitleSummary),
    (insertSorted t l).length = l.length + 1
  | [] => rfl
  | h :: rest => by
    unfold insertSorted
    split
    · simp [length_insertSorted t rest]
    · simp


/-- Claim C9: every Summary the Aggregator produces (from units whose
agency lists are duplicate-free, as the parser guarantees) has
total_metrics fields equal to the elementwise sums over the included
units, a titles list sorted by unit number ascending, and an agency
mapping containing exactly the agencies observed in at least one included
unit, each counted by the number of units listing it. -/
theorem summary_invariants (today : String) (results : List (Nat × TitleData)) (s : Summary)
    (hnd : ∀ e ∈ results, e.2.agencies.Nodup)
    (h : generate_summary today results = some s) :
    (s.total_metrics.word_count = (results.map (fun e => e.2.metrics.word_count)).sum ∧
     s.total_metrics.section_count = (results.map (fun e => e.2.metrics.section_count)).sum ∧
     s.total_metrics.paragraph_count =
       (results.map (fun e => e.2.metrics.paragraph_count)).sum ∧
     s.total_metrics.chapter_count = (results.map (fun e => e.2.metrics.chapter_count)).sum ∧
     s.total_metrics.part_count = (results.map (fun e => e.2.metrics.part_count)).sum) ∧
    s.titles.Pairwise (fun a b => a.number ≤ b.number) ∧
    (∀ a c, s.agencies.lookup a = some c →
      c = results.countP (fun e => e.2.agencies.contains a) ∧ 0 < c) ∧
    (∀ a, (s.agencies.lookup a).isSome = true ↔ ∃ e ∈ results, a ∈ e.2.agencies) := by
  unfold generate_summary at h
  split at h
  · cases h
  · simp only [Option.some.injEq] at h
    subst h
    have hinit : (summaryInit today results).agencies = [] := rfl
    refine ⟨?_, ?_, fun a c hc => ?_, fun a => ?_⟩
    · dsimp only
      rw [summaryFold_metrics, foldl_addMetrics]
      simp [summaryInit]
    · dsimp only
      exact sortByNumber_pairwise _
    · replace hc : ((results.foldl summaryStep (summaryInit today results)).agencies.lookup a)
          = some c := hc
      rw [summaryFold_agencies, hinit] at hc
      have hl := foldl_units_agencies_lookup results [] a
      have h1 := hl.1
      have h2 := hl.2
      rw [hc] at h1 h2
      simp only [List.lookup_nil, Option.getD_some, Option.getD_none,
        Option.isSome_none, Bool.false_or, Option.isSome_some] at h1 h2
      have hcount : c = results.countP (fun e => e.2.agencies.contains a) := by
        rw [h1, Nat.zero_add, sum_count_eq_countP results a hnd]
      refine ⟨hcount, ?_⟩
      rw [hcount, List.countP_pos_iff]
      have h2s := h2.symm
      rw [List.any_eq_true] at h2s
      obtain ⟨e, he, hce⟩ := h2s
      exact ⟨e, he, hce⟩
    · show ((results.foldl summaryStep (summaryInit today results)).agencies.lookup a).isSome
          = true ↔ _
      rw [summaryFold_agencies, hinit]
      have h2 := (foldl_units_agencies_lookup results [] a).2
      rw [h2]
      simp only [List.lookup_nil, Option.isSome_none, Bool.false_or, List.any_eq_true]
      constructor
      · rintro ⟨e, he, hce⟩
        exact ⟨e, he, by simpa using hce⟩
      · rintro ⟨e, he, hce⟩
        exact ⟨e, he, by simpa using hce⟩

/-- Witness for C9: the summary of a single concrete unit, with the
sortedness and word-count facts obtained from the invariant theorem. -/
theorem summary_invariants_witness :
    ∃ s, generate_summary "2026-10-12" [(7, tdSample)] = some s ∧
      s.titles.Pairwise (fun a b => a.number ≤ b.number) ∧
      s.total_metrics.word_count = 3 := by
  have hsome : (generate_summary "2026-10-12" [(7, tdSample)]).isSome = true := by decide
  have heq : generate_summary "2026-10-12" [(7, tdSample)] =
      some ((generate_summary "2026-10-12" [(7, tdSample)]).get hsome) :=
    (Option.some_get hsome).symm
  have hmain := summary_invariants "2026-10-12" [(7, tdSample)] _ (by decide) heq
  refine ⟨_, heq, hmain.2.1, ?_⟩
  rw [hmain.1.1]
  decide

/-- The collection fold leaves the total-titles field alone. -/
theorem summaryFold_total : ∀ (results : List (Nat × TitleData)) (init : Summary),
    (results.foldl summaryStep init).total_titles = init.total_titles
  | [], _ => rfl
  | e :: rest, init => by
    rw [List.foldl_cons, summaryFold_total rest]
    simp [summaryStep]

/-- The titles of a generated summary are exactly the per-unit
projections of the given results, sorted by number. -/
theorem generate_summary_titles (today : String) (results : List (Nat × TitleData))
    (s : Summary) (h : generate_summary today results = some s) :
    s.titles = sortByNumber (results.map (fun e =>
      ({ number := e.1, name := e.2.name, agencies := e.2.agencies,
         dates := e.2.dates, metrics := e.2.metrics } : TitleSummary))) ∧
    s.total_titles = results.length := by
  unfold generate_summary at h
  split at h
  · cases h
  · simp only [Option.some.injEq] at h
    subst h
    constructor
    · dsimp only
      rw [summaryFold_titles]
      simp [summaryInit]
    · dsimp only
      rw [summaryFold_total]
      rfl

/-- The pipeline's per-title step never touches the summary artifact. -/
theorem process_title_summary (net : Nat → Nat → Option XFile) (today : String)
    (n : Nat) (xml_dir json_dir : String) (force : Bool) (st : PipeState) :
    (process_title net today n xml_dir json_dir force st).2.summary = st.summary := by
  unfold process_title
  split
  split
  · rfl
  · rfl

/-- The worker loop never touches the summary artifact. -/
theorem runBatch_summary (net : Nat → Nat → Option XFile) (today : String)
    (xml_dir json_dir : String) (force : Bool) :
    ∀ (l : List Nat) (st : PipeState),
      (runBatch net today xml_dir json_dir force l st).2.summary = st.summary
  | [], _ => rfl
  | n :: rest, st => by
    unfold runBatch
    split
    rename_i p1 r st1 heq1
    split
    rename_i p2 rs st2 heq2
    have h1 : st1.summary = st.summary := by
      have hh := process_title_summary net today n xml_dir json_dir force st
      rw [heq1] at hh
      exact hh
    have h2 : st2.summary = st1.summary := by
      have hh := runBatch_summary net today xml_dir json_dir force rest st1
      rw [heq2] at hh
      exact hh
    cases r with
    | some td => simpa using h2.trans h1
    | none => simpa using h2.trans h1

/-- Claim C1 (amended): the Summary written at the end of a batch run is
computed from scratch from exactly the units successfully processed in
THAT run (`results`): when nothing succeeded the prior summary is left in
place, otherwise the written summary is precisely the Aggregator's output
on this run's results, and its unit list covers exactly this run's
successful unit numbers — units persisted by earlier runs but not in the
current batch do not appear. -/
theorem summary_covers_exactly_current_batch
    (net : Nat → Nat → Option XFile) (today data_dir : String) (force : Bool)
    (title_nums : Option (List Nat)) (st : PipeState) :
    ((process_all_titles net today data_dir force title_nums st).1 = [] →
      (process_all_titles net today data_dir force title_nums st).2.summary = st.summary) ∧
    ((process_all_titles net today data_dir force title_nums st).1 ≠ [] →
      (process_all_titles net today data_dir force title_nums st).2.summary =
        generate_summary today (process_all_titles net today data_dir force title_nums st).1) ∧
    (∀ s, generate_summary today
        (process_all_titles net today data_dir force title_nums st).1 = some s →
      ∀ n : Nat, (∃ t ∈ s.titles, t.number = n) ↔
        n ∈ (process_all_titles net today data_dir force title_nums st).1.map Prod.fst) := by
  have heq : process_all_titles net today data_dir force title_nums st =
      ((runBatch net today (data_dir ++ "/xml") (data_dir ++ "/processed") force
          (titlesToProcess title_nums) st).1,
       if (runBatch net today (data_dir ++ "/xml") (data_dir ++ "/processed") force
          (titlesToProcess title_nums) st).1.isEmpty then
         (runBatch net today (data_dir ++ "/xml") (data_dir ++ "/processed") force
          (titlesToProcess title_nums) st).2
       else
         match generate_summary today
             (runBatch net today (data_dir ++ "/xml") (data_dir ++ "/processed") force
              (titlesToProcess title_nums) st).1 with
         | some s => { (runBatch net today (data_dir ++ "/xml") (data_dir ++ "/processed")
             force (titlesToProcess title_nums) st).2 with summary := some s }
         | none => (runBatch net today (data_dir ++ "/xml") (data_dir ++ "/processed") force
             (titlesToProcess title_nums) st).2) := rfl
  rw [heq]
  simp only []
  refine ⟨fun hempty => ?_, fun hne => ?_, fun s hs n => ?_⟩
  · rw [hempty]
    simp only [List.isEmpty_nil, if_true]
    exact runBatch_summary net today (data_dir ++ "/xml") (data_dir ++ "/processed") force _ st
  · have hI : (runBatch net today (data_dir ++ "/xml") (data_dir ++ "/processed") force
        (titlesToProcess title_nums) st).1.isEmpty = false := by
      rw [List.isEmpty_eq_false]
      exact hne
    rw [hI]
    simp only [Bool.false_eq_true, if_false]
    cases hG : generate_summary today
        (runBatch net today (data_dir ++ "/xml") (data_dir ++ "/processed") force
          (titlesToProcess title_nums) st).1 with
    | none =>
      exfalso
      unfold generate_summary at hG
      rw [hI] at hG
      simp at hG
    | some s => rfl
  · rw [(generate_summary_titles today _ s hs).1]
    simp only [mem_sortByNumber, List.mem_map]
    constructor
    · rintro ⟨t, ⟨e, he, rfl⟩, hn⟩
      exact ⟨e, he, hn⟩
    · rintro ⟨e, he, hn⟩
      exact ⟨_, ⟨e, he, rfl⟩, hn⟩

/-- Witness for C1 (amended): after the restricted run over unit 2, the
written summary equals the Aggregator's output on that run's results. -/
theorem summary_covers_witness :
    (process_all_titles netOnly2 "2026-10-12" "data" false (some [2]) stEarlier).2.summary =
      generate_summary "2026-10-12"
        (process_all_titles netOnly2 "2026-10-12" "data" false (some [2]) stEarlier).1 :=
  (summary_covers_exactly_current_batch netOnly2 "2026-10-12" "data" false (some [2])
    stEarlier).2.1 (by decide)

/-- Counterexample to C1 as stated: unit 1 was persisted by an earlier run
(and its record is still in the store after the new run), but a batch
restricted to unit 2 writes a Summary whose unit list is exactly [2] —
the aggregation reads only the current run's in-memory results, not the
persisted store. -/
theorem summary_drops_previously_persisted_unit :
    storeLookup stEarlier.processed 1 = some tdOld ∧
    (stEarlier.summary.map (fun s => s.titles.map TitleSummary.number)) = some [1] ∧
    storeLookup
      (process_all_titles netOnly2 "2026-10-12" "data" false (some [2]) stEarlier).2.processed
      1 = some tdOld ∧
    ((process_all_titles netOnly2 "2026-10-12" "data" false (some [2])
        stEarlier).2.summary.map (fun s => s.titles.map TitleSummary.number)) = some [2] := by
  exact ⟨rfl, by decide, by decide, by decide⟩

/-- A freshly written cache file is found at its path. -/
theorem fsLookup_fsSet_self (fs : FS) (p : String) (f : XFile) :
    fsLookup (fsSet fs p f) p = some f := by
  simp [fsLookup, fsSet]

/-- Filtering with a predicate that keeps every binding of a key leaves
that key's lookup alone. -/
theorem lookup_filter_of {β : Type} (P : String × β → Bool) :
    ∀ (l : List (String × β)) (q : String), (∀ kv, kv.1 = q → P kv = true) →
    List.lookup q (l.filter P) = List.lookup q l
  | [], _, _ => rfl
  | (k, f) :: tl, q, h => by
    have ih := lookup_filter_of P tl q h
    by_cases hk : P (k, f) = true
    · rw [List.filter_cons_of_pos hk]
      cases hqk : (q == k) <;> simp [List.lookup_cons, hqk, ih]
    · have hqk : (q == k) = false := by
        refine beq_eq_false_iff_ne.mpr (fun he => hk ?_)
        exact h _ he.symm
      rw [List.filter_cons_of_neg (by simpa using hk)]
      simp [List.lookup_cons, hqk, ih]

/-- Writing one cache file leaves lookups of other paths alone. -/
theorem fsLookup_fsSet_ne (fs : FS) (p q : String) (f : XFile) (h : q ≠ p) :
    fsLookup (fsSet fs p f) q = fsLookup fs q := by
  have hqp : (q == p) = false := beq_eq_false_iff_ne.mpr h
  simp only [fsLookup, fsSet, List.lookup_cons, hqp]
  exact lookup_filter_of _ fs q (fun kv hkv => by
    simp only [hkv]
    simpa using h)

/-- A unit whose cache is cold and whose first request succeeds with
parseable XML runs its whole pipeline: one network call, the cache file
written, the record persisted, the parsed unit returned. -/
theorem process_title_succ (net : Nat → Nat → Option XFile) (today : String) (n : Nat)
    (xml_dir json_dir : String) (st : PipeState) (f : XFile) (x : Xml)
    (hfs : fsLookup st.fs (xml_dir ++ "/title-" ++ toString n ++ ".xml") = none)
    (hnet : net n 0 = some f) (hx : f.parsed = some x)
    (hnum : titleNumOfFileName (basenameOf (xml_dir ++ "/title-" ++ toString n ++ ".xml"))
      = some n) :
    process_title net today n xml_dir json_dir false st =
      (some (parseTitleXml today n (xml_dir ++ "/title-" ++ toString n ++ ".xml") x),
       { st with
         fs := fsSet st.fs (xml_dir ++ "/title-" ++ toString n ++ ".xml") f
         netCalls := st.netCalls + 1
         processed := storeSet st.processed n
           (parseTitleXml today n (xml_dir ++ "/title-" ++ toString n ++ ".xml") x) }) := by
  have hdl : download_title net n xml_dir (!false) ⟨st.fs, st.netCalls⟩ =
      ((true, xml_dir ++ "/title-" ++ toString n ++ ".xml", f.size),
       ⟨fsSet st.fs (xml_dir ++ "/title-" ++ toString n ++ ".xml") f, st.netCalls + 1⟩) := by
    unfold download_title
    have hrange : List.range MAX_RETRIES = [0, 1, 2] := rfl
    simp only [Bool.not_false, if_true, hfs, hrange, dlAttempts, hnet]
  have hex : extract_text_from_xml today
      (fsSet st.fs (xml_dir ++ "/title-" ++ toString n ++ ".xml") f)
      (xml_dir ++ "/title-" ++ toString n ++ ".xml") json_dir st.processed =
      (some (parseTitleXml today n (xml_dir ++ "/title-" ++ toString n ++ ".xml") x,
        json_dir ++ "/title-" ++ toString n ++ ".json"),
       storeSet st.processed n
         (parseTitleXml today n (xml_dir ++ "/title-" ++ toString n ++ ".xml") x)) := by
    unfold extract_text_from_xml
    simp only [fsLookup_fsSet_self, hnum, hx]
  unfold process_title
  rw [hdl]
  simp only [if_true]
  rw [hex]
  rfl

/-- A unit whose cache is cold and whose every request fails exhausts the
three attempts and reports failure, leaving only the call counter
changed. -/
theorem process_title_fail (net : Nat → Nat → Option XFile) (today : String) (n : Nat)
    (xml_dir json_dir : String) (st : PipeState)
    (hfs : fsLookup st.fs (xml_dir ++ "/title-" ++ toString n ++ ".xml") = none)
    (hnet : ∀ a, net n a = none) :
    process_title net today n xml_dir json_dir false st =
      (none, { st with netCalls := st.netCalls + 3 }) := by
  have hdl : download_title net n xml_dir (!false) ⟨st.fs, st.netCalls⟩ =
      ((false, xml_dir ++ "/title-" ++ toString n ++ ".xml", 0),
       ⟨st.fs, st.netCalls + 3⟩) := by
    unfold download_title
    have hrange : List.range MAX_RETRIES = [0, 1, 2] := rfl
    simp only [Bool.not_false, if_true, hfs, hrange, dlAttempts, hnet]
    norm_num
  unfold process_title
  rw [hdl]
  simp


/-- Claim C7 (amended): in a batch of units 1, 2, 3 where unit 2's fetch
fails on every attempt (exhausting the three retries) and units 1 and 3
succeed, the run returns a result map with entries for EXACTLY the
successful units — 1 and 3; the failed unit has no entry at all (rather
than an explicit fail marker) — and the written Summary contains exactly
the two successful units.  One unit's failure affects neither sibling's
presence. -/
theorem batch_failure_isolated
    (net : Nat → Nat → Option XFile) (today : String) (f1 f3 : XFile) (x1 x3 : Xml)
    (h1 : net 1 0 = some f1) (hp1 : f1.parsed = some x1)
    (h3 : net 3 0 = some f3) (hp3 : f3.parsed = some x3)
    (h2 : ∀ a, net 2 a = none) :
    (process_all_titles net today "d" false (some [1, 2, 3]) stEmpty).1.map Prod.fst
      = [1, 3] ∧
    (process_all_titles net today "d" false (some [1, 2, 3]) stEmpty).1.lookup 2 = none ∧
    ((process_all_titles net today "d" false (some [1, 2, 3]) stEmpty).1.lookup 1).isSome
      = true ∧
    ((process_all_titles net today "d" false (some [1, 2, 3]) stEmpty).1.lookup 3).isSome
      = true ∧
    (∃ s, (process_all_titles net today "d" false (some [1, 2, 3]) stEmpty).2.summary
        = some s ∧
      s.titles.map TitleSummary.number = [1, 3] ∧ s.total_titles = 2) := by
  have e1 := process_title_succ net today 1 "d/xml" "d/processed" stEmpty f1 x1 rfl h1 hp1
    (by decide)
  have hfs2 : fsLookup (fsSet stEmpty.fs ("d/xml" ++ "/title-" ++ toString 1 ++ ".xml") f1)
      ("d/xml" ++ "/title-" ++ toString 2 ++ ".xml") = none := by
    rw [fsLookup_fsSet_ne _ _ _ _ (by decide)]
    rfl
  have e2 := process_title_fail net today 2 "d/xml" "d/processed"
    { fs := fsSet stEmpty.fs ("d/xml" ++ "/title-" ++ toString 1 ++ ".xml") f1
      processed := storeSet stEmpty.processed 1
        (parseTitleXml today 1 ("d/xml" ++ "/title-" ++ toString 1 ++ ".xml") x1)
      summary := stEmpty.summary
      netCalls := stEmpty.netCalls + 1 }
    hfs2 h2
  dsimp only at e2
  have hfs3 : fsLookup (fsSet stEmpty.fs ("d/xml" ++ "/title-" ++ toString 1 ++ ".xml") f1)
      ("d/xml" ++ "/title-" ++ toString 3 ++ ".xml") = none := by
    rw [fsLookup_fsSet_ne _ _ _ _ (by decide)]
    rfl
  have e3 := process_title_succ net today 3 "d/xml" "d/processed"
    { fs := fsSet stEmpty.fs ("d/xml" ++ "/title-" ++ toString 1 ++ ".xml") f1
      processed := storeSet stEmpty.processed 1
        (parseTitleXml today 1 ("d/xml" ++ "/title-" ++ toString 1 ++ ".xml") x1)
      summary := stEmpty.summary
      netCalls := stEmpty.netCalls + 1 + 3 }
    f3 x3 hfs3 h3 hp3 (by decide)
  dsimp only at e3
  have hRB : runBatch net today ("d" ++ "/xml") ("d" ++ "/processed") false
      (titlesToProcess (some [1, 2, 3])) stEmpty =
      ([(1, parseTitleXml today 1 ("d/xml" ++ "/title-" ++ toString 1 ++ ".xml") x1),
        (3, parseTitleXml today 3 ("d/xml" ++ "/title-" ++ toString 3 ++ ".xml") x3)],
       { fs := fsSet
           (fsSet stEmpty.fs ("d/xml" ++ "/title-" ++ toString 1 ++ ".xml") f1)
           ("d/xml" ++ "/title-" ++ toString 3 ++ ".xml") f3
         processed := storeSet
           (storeSet stEmpty.processed 1
             (parseTitleXml today 1 ("d/xml" ++ "/title-" ++ toString 1 ++ ".xml") x1))
           3 (parseTitleXml today 3 ("d/xml" ++ "/title-" ++ toString 3 ++ ".xml") x3)
         summary := stEmpty.summary
         netCalls := stEmpty.netCalls + 1 + 3 + 1 }) := by
    have htp : titlesToProcess (some [1, 2, 3]) = [1, 2, 3] := rfl
    have hd1 : ("d" ++ "/xml" : String) = "d/xml" := rfl
    have hd2 : ("d" ++ "/processed" : String) = "d/processed" := rfl
    rw [htp, hd1, hd2]
    simp only [runBatch, e1, e2, e3]
  have hmain : process_all_titles net today "d" false (some [1, 2, 3]) stEmpty =
      ((runBatch net today ("d" ++ "/xml") ("d" ++ "/processed") false
          (titlesToProcess (some [1, 2, 3])) stEmpty).1,
       if (runBatch net today ("d" ++ "/xml") ("d" ++ "/processed") false
          (titlesToProcess (some [1, 2, 3])) stEmpty).1.isEmpty then
         (runBatch net today ("d" ++ "/xml") ("d" ++ "/processed") false
          (titlesToProcess (some [1, 2, 3])) stEmpty).2
       else
         match generate_summary today
             (runBatch net today ("d" ++ "/xml") ("d" ++ "/processed") false
              (titlesToProcess (some [1, 2, 3])) stEmpty).1 with
         | some s => { (runBatch net today ("d" ++ "/xml") ("d" ++ "/processed") false
             (titlesToProcess (some [1, 2, 3])) stEmpty).2 with summary := some s }
         | none => (runBatch net today ("d" ++ "/xml") ("d" ++ "/processed") false
             (titlesToProcess (some [1, 2, 3])) stEmpty).2) := rfl
  rw [hmain, hRB]
  simp only [List.isEmpty_cons, Bool.false_eq_true, if_false]
  cases hG : generate_summary today
      [(1, parseTitleXml today 1 ("d/xml" ++ "/title-" ++ toString 1 ++ ".xml") x1),
       (3, parseTitleXml today 3 ("d/xml" ++ "/title-" ++ toString 3 ++ ".xml") x3)] with
  | none =>
    exfalso
    unfold generate_summary at hG
    simp at hG
  | some s =>
    obtain ⟨hti, hto⟩ := generate_summary_titles today _ s hG
    refine ⟨by simp, by simp [List.lookup_cons], by simp [List.lookup_cons],
      by simp [List.lookup_cons], s, rfl, ?_, by rw [hto]; rfl⟩
    rw [hti]
    simp [sortByNumber, insertSorted]

/-- Counterexample to C7 as stated: in the concrete three-unit batch
where unit 2's fetch exhausts all three retries, the returned result map
has NO entry for unit 2 at all — not a fail entry as the claim demands.
The netCalls count of 5 (1 + 3 + 1) confirms the three exhausted
attempts. -/
theorem batch_result_map_omits_failed_unit :
    (process_all_titles net13 "2026-10-12" "d" false (some [1, 2, 3]) stEmpty).1.map Prod.fst
      = [1, 3] ∧
    (process_all_titles net13 "2026-10-12" "d" false (some [1, 2, 3]) stEmpty).1.lookup 2
      = none ∧
    (process_all_titles net13 "2026-10-12" "d" false (some [1, 2, 3]) stEmpty).2.netCalls
      = 5 := by
  exact ⟨by decide, by decide, by decide⟩

/-- Witness for C7 (amended): the scenario instantiated with the concrete
always-failing-unit-2 network. -/
theorem batch_failure_isolated_witness :
    (process_all_titles net13 "2026-10-12" "d" false (some [1, 2, 3]) stEmpty).1.map Prod.fst
      = [1, 3] ∧
    (∃ s, (process_all_titles net13 "2026-10-12" "d" false (some [1, 2, 3])
        stEmpty).2.summary = some s ∧
      s.titles.map TitleSummary.number = [1, 3] ∧ s.total_titles = 2) := by
  have h := batch_failure_isolated net13 "2026-10-12"
    { size := 64, parsed := some emptyDoc } { size := 64, parsed := some emptyDoc }
    emptyDoc emptyDoc rfl rfl rfl rfl (fun a => rfl)
  exact ⟨h.1, h.2.2.2.2⟩


/-- Counterexample to C6 as stated: two documents whose single chapter
differs only in the nested agency name produce IDENTICAL chapter records
— the agency name cannot have been attached to the chapter record — while
the unit-level agency lists do pick the names up. -/
theorem chapter_record_ignores_agency :
    (parseTitleXml "2026-10-12" 1 "x/title-1.xml" (chapterDocWith "Agency X")).chapters =
      (parseTitleXml "2026-10-12" 1 "x/title-1.xml" (chapterDocWith "Agency Y")).chapters ∧
    (parseTitleXml "2026-10-12" 1 "x/title-1.xml" (chapterDocWith "Agency X")).agencies
      = ["Agency X"] ∧
    (parseTitleXml "2026-10-12" 1 "x/title-1.xml" (chapterDocWith "Agency Y")).agencies
      = ["Agency Y"] := by
  exact ⟨by decide, by decide, by decide⟩

/-- A found element stays the first match after appending. -/
theorem find?_append_of_some {α : Type} (p : α → Bool) (l l' : List α) (t : α)
    (h : l.find? p = some t) : (l ++ l').find? p = some t := by
  induction l with
  | nil => simp [List.find?] at h
  | cons x xs ih =>
    cases hx : p x with
    | true =>
      rw [List.find?_cons_of_pos _ hx] at h
      rw [List.cons_append, List.find?_cons_of_pos _ hx]
      exact h
    | false =>
      rw [List.find?_cons_of_neg _ (by simp [hx])] at h
      rw [List.cons_append, List.find?_cons_of_neg _ (by simp [hx])]
      exact ih h

/-- With no match in the front list, the search moves to the appended
tail. -/
theorem find?_append_of_none {α : Type} (p : α → Bool) (l l' : List α)
    (h : l.find? p = none) : (l ++ l').find? p = l'.find? p := by
  induction l with
  | nil => rfl
  | cons x xs ih =>
    cases hx : p x with
    | true =>
      rw [List.find?_cons_of_pos _ hx] at h
      simp at h
    | false =>
      rw [List.find?_cons_of_neg _ (by simp [hx])] at h
      rw [List.cons_append, List.find?_cons_of_neg _ (by simp [hx])]
      exact ih h

/-- Updating the first match in place is a no-op when that match is a
fixed point of the update. -/
theorem updateFirst_of_fix {α : Type} (p : α → Bool) (f : α → α) (l : List α) (t : α)
    (hfind : l.find? p = some t) (hfix : f t = t) : updateFirst p f l = l := by
  induction l with
  | nil => simp [List.find?] at hfind
  | cons x xs ih =>
    cases hx : p x with
    | true =>
      rw [List.find?_cons_of_pos _ hx] at hfind
      have hxt : x = t := by injection hfind
      have h1 : updateFirst p f (x :: xs) = f x :: xs := by simp [updateFirst, hx]
      rw [h1, hxt, hfix]
    | false =>
      rw [List.find?_cons_of_neg _ (by simp [hx])] at hfind
      simp [updateFirst, hx, ih hfind]

/-- After updating the first match in place, the first match is the
updated element (when the update keeps it matching). -/
theorem find?_updateFirst_self {α : Type} (p : α → Bool) (f : α → α) (l : List α) (t : α)
    (hfind : l.find? p = some t) (hpf : p (f t) = true) :
    (updateFirst p f l).find? p = some (f t) := by
  induction l with
  | nil => simp [List.find?] at hfind
  | cons x xs ih =>
    cases hx : p x with
    | true =>
      rw [List.find?_cons_of_pos _ hx] at hfind
      have hxt : x = t := by injection hfind
      have h1 : updateFirst p f (x :: xs) = f x :: xs := by simp [updateFirst, hx]
      rw [h1, hxt, List.find?_cons_of_pos _ hpf]
    | false =>
      rw [List.find?_cons_of_neg _ (by simp [hx])] at hfind
      have h1 : updateFirst p f (x :: xs) = x :: updateFirst p f xs := by
        simp [updateFirst, hx]
      rw [h1, List.find?_cons_of_neg _ (by simp [hx])]
      exact ih hfind

/-- An in-place update through a disjoint predicate leaves the search for
`p` untouched. -/
theorem find?_updateFirst_other {α : Type} (p q : α → Bool) (f : α → α) (l : List α)
    (hpf : ∀ r, p (f r) = p r) (hqp : ∀ r, q r = true → p r = false) :
    (updateFirst q f l).find? p = l.find? p := by
  induction l with
  | nil => rfl
  | cons x xs ih =>
    cases hq : q x with
    | true =>
      have hpx : p x = false := hqp x hq
      have hpfx : p (f x) = false := by rw [hpf]; exact hpx
      have h1 : updateFirst q f (x :: xs) = f x :: xs := by simp [updateFirst, hq]
      rw [h1, List.find?_cons_of_neg _ (by simp [hpfx]),
        List.find?_cons_of_neg _ (by simp [hpx])]
    | false =>
      have h1 : updateFirst q f (x :: xs) = x :: updateFirst q f xs := by
        simp [updateFirst, hq]
      rw [h1]
      cases hp : p x with
      | true => rw [List.find?_cons_of_pos _ hp, List.find?_cons_of_pos _ hp]
      | false =>
        rw [List.find?_cons_of_neg _ (by simp [hp]), List.find?_cons_of_neg _ (by simp [hp])]
        exact ih

/-- A fold whose every step fixes the accumulator fixes it overall. -/
theorem foldl_fixed {α β : Type} (f : α → β → α) (a : α) :
    ∀ l : List β, (∀ b ∈ l, f a b = a) → l.foldl f a = a := by
  intro l
  induction l with
  | nil => intro _; rfl
  | cons x xs ih =>
    intro h
    rw [List.foldl_cons, h x (List.mem_cons_self x xs)]
    exact ih (fun b hb => h b (List.mem_cons_of_mem x hb))

/-- A keyed step with an empty key is skipped. -/
theorem keyedStep_skip {α β : Type} (key : β → String) (p : β → α → Bool)
    (upd : β → α → α) (mk : β → α) (l : List α) (b : β) (hbe : key b = "") :
    keyedStep key p upd mk l b = l := by
  unfold keyedStep
  rw [if_pos hbe]

/-- A keyed step whose row is already present updates it in place. -/
theorem keyedStep_found {α β : Type} (key : β → String) (p : β → α → Bool)
    (upd : β → α → α) (mk : β → α) (l : List α) (b : β) (t : α)
    (hbe : ¬ key b = "") (hft : l.find? (p b) = some t) :
    keyedStep key p upd mk l b = updateFirst (p b) (upd b) l := by
  unfold keyedStep
  rw [if_neg hbe, hft]

/-- One keyed step leaves a first match for its own key that the update
fixes. -/
theorem keyedStep_establishes {α β : Type} (key : β → String) (p : β → α → Bool)
    (upd : β → α → α) (mk : β → α)
    (hpres : ∀ b b' r, p b (upd b' r) = p b r)
    (hmkp : ∀ b, p b (mk b) = true)
    (hmkfix : ∀ b, upd b (mk b) = mk b)
    (hidem : ∀ b r, upd b (upd b r) = upd b r)
    (l : List α) (b : β) (hb : ¬ key b = "") :
    ∃ t, (keyedStep key p upd mk l b).find? (p b) = some t ∧ upd b t = t := by
  unfold keyedStep
  rw [if_neg hb]
  cases hf : l.find? (p b) with
  | some t0 =>
    refine ⟨upd b t0, ?_, hidem b t0⟩
    show (updateFirst (p b) (upd b) l).find? (p b) = some (upd b t0)
    exact find?_updateFirst_self (p b) (upd b) l t0 hf
      (by rw [hpres b b t0]; exact List.find?_some hf)
  | none =>
    refine ⟨mk b, ?_, hmkfix b⟩
    show (l ++ [mk b]).find? (p b) = some (mk b)
    rw [find?_append_of_none (p b) l [mk b] hf, List.find?_cons_of_pos _ (hmkp b)]

/-- A keyed step for a different (or empty) key preserves the first match
for ours exactly. -/
theorem keyedStep_preserves {α β : Type} (key : β → String) (p : β → α → Bool)
    (upd : β → α → α) (mk : β → α)
    (hpres : ∀ b b' r, p b (upd b' r) = p b r)
    (hdisj : ∀ b b', ¬ key b = key b' → ∀ r, p b' r = true → p b r = false)
    (l : List α) (b b' : β) (t : α)
    (hbb : key b' = "" ∨ ¬ key b = key b')
    (hf : l.find? (p b) = some t) :
    (keyedStep key p upd mk l b').find? (p b) = some t := by
  unfold keyedStep
  by_cases hb' : key b' = ""
  · rw [if_pos hb']; exact hf
  · rw [if_neg hb']
    have hne : ¬ key b = key b' := hbb.resolve_left hb'
    cases hf' : l.find? (p b') with
    | some t0 =>
      show (updateFirst (p b') (upd b') l).find? (p b) = some t
      rw [find?_updateFirst_other (p b) (p b') (upd b') l
        (fun r => hpres b b' r) (hdisj b b' hne)]
      exact hf
    | none =>
      show (l ++ [mk b']).find? (p b) = some t
      exact find?_append_of_some (p b) l [mk b'] t hf

/-- Folding keyed steps over records with keys all distinct from ours
preserves the first match for ours exactly. -/
theorem keyedFold_preserves {α β : Type} (key : β → String) (p : β → α → Bool)
    (upd : β → α → α) (mk : β → α)
    (hpres : ∀ b b' r, p b (upd b' r) = p b r)
    (hdisj : ∀ b b', ¬ key b = key b' → ∀ r, p b' r = true → p b r = false)
    (b : β) (t : α) :
    ∀ cs : List β, (∀ c ∈ cs, key c = "" ∨ ¬ key b = key c) →
      ∀ l : List α, l.find? (p b) = some t →
        (cs.foldl (keyedStep key p upd mk) l).find? (p b) = some t := by
  intro cs
  induction cs with
  | nil => intro _ l hf; exact hf
  | cons c0 rest ih =>
    intro hcs l hf
    rw [List.foldl_cons]
    exact ih (fun c hc => hcs c (List.mem_cons_of_mem c0 hc)) _
      (keyedStep_preserves key p upd mk hpres hdisj l b c0 t
        (hcs c0 (List.mem_cons_self c0 rest)) hf)

/-- After one full keyed fold, every nonempty-keyed record of the batch
has a first match that its own update fixes. -/
theorem keyedFold_establishes {α β : Type} (key : β → String) (p : β → α → Bool)
    (upd : β → α → α) (mk : β → α)
    (hpres : ∀ b b' r, p b (upd b' r) = p b r)
    (hdisj : ∀ b b', ¬ key b = key b' → ∀ r, p b' r = true → p b r = false)
    (hmkp : ∀ b, p b (mk b) = true)
    (hmkfix : ∀ b, upd b (mk b) = mk b)
    (hidem : ∀ b r, upd b (upd b r) = upd b r)
    (b : β) (hbne : ¬ key b = "") :
    ∀ cs : List β,
      cs.Pairwise (fun a c => key a = "" ∨ key c = "" ∨ ¬ key a = key c) →
      b ∈ cs → ∀ l : List α,
        ∃ t, (cs.foldl (keyedStep key p upd mk) l).find? (p b) = some t ∧ upd b t = t := by
  intro cs
  induction cs with
  | nil => intro _ hb; exact absurd hb (List.not_mem_nil b)
  | cons c0 rest ih =>
    intro hpair hb l
    rw [List.pairwise_cons] at hpair
    obtain ⟨hR, hpr⟩ := hpair
    rw [List.foldl_cons]
    rcases List.mem_cons.mp hb with hb0 | hbr
    · subst hb0
      obtain ⟨t, hft, hfix⟩ :=
        keyedStep_establishes key p upd mk hpres hmkp hmkfix hidem l b hbne
      refine ⟨t, ?_, hfix⟩
      refine keyedFold_preserves key p upd mk hpres hdisj b t rest ?_ _ hft
      intro c hc
      rcases hR c hc with h | h | h
      · exact absurd h hbne
      · exact Or.inl h
      · exact Or.inr h
    · exact ih hpr hbr (keyedStep key p upd mk l c0)

/-- A second identical keyed fold is the identity: every step finds its
row already present with its target field values. -/
theorem keyedFold_idem {α β : Type} (key : β → String) (p : β → α → Bool)
    (upd : β → α → α) (mk : β → α)
    (hpres : ∀ b b' r, p b (upd b' r) = p b r)
    (hdisj : ∀ b b', ¬ key b = key b' → ∀ r, p b' r = true → p b r = false)
    (hmkp : ∀ b, p b (mk b) = true)
    (hmkfix : ∀ b, upd b (mk b) = mk b)
    (hidem : ∀ b r, upd b (upd b r) = upd b r)
    (cs : List β)
    (hpair : cs.Pairwise (fun a c => key a = "" ∨ key c = "" ∨ ¬ key a = key c))
    (l : List α) :
    cs.foldl (keyedStep key p upd mk) (cs.foldl (keyedStep key p upd mk) l) =
      cs.foldl (keyedStep key p upd mk) l := by
  apply foldl_fixed
  intro b hb
  by_cases hbe : key b = ""
  · exact keyedStep_skip key p upd mk _ b hbe
  · obtain ⟨t, hft, hfix⟩ :=
      keyedFold_establishes key p upd mk hpres hdisj hmkp hmkfix hidem b hbe cs hpair hb l
    rw [keyedStep_found key p upd mk _ b t hbe hft]
    exact updateFirst_of_fix (p b) (upd b) _ t hft hfix

/-- The chapter loop step is an instance of the keyed upsert shape. -/
theorem chapterStep_eq_keyedStep (tid : Nat) :
    chapterStep tid = keyedStep (fun c => c.number)
      (fun c r => r.number == c.number && r.title_id == tid)
      (fun c r => chapterUpdate c r) (fun c => chapterRowOf tid c) := by
  funext l c
  unfold chapterStep keyedStep
  beta_reduce
  by_cases hc : c.number = ""
  · rw [if_pos hc, if_pos hc]
  · rw [if_neg hc, if_neg hc]
    cases hf : List.find? (fun r => r.number == c.number && r.title_id == tid) l with
    | some t => rfl
    | none => rfl

/-- Replaying the chapter loop on its own output changes nothing when the
batch's nonempty chapter numbers are pairwise distinct. -/
theorem chapterStep_fold_idem (tid : Nat) (cs : List ChapterInfo)
    (hpair : cs.Pairwise (fun a c => a.number = "" ∨ c.number = "" ∨ ¬ a.number = c.number))
    (l : List ChapterRow) :
    cs.foldl (chapterStep tid) (cs.foldl (chapterStep tid) l) =
      cs.foldl (chapterStep tid) l := by
  rw [chapterStep_eq_keyedStep tid]
  refine keyedFold_idem _ _ _ _ ?_ ?_ ?_ ?_ ?_ cs ?_ l
  · intro b b' r; rfl
  · intro b b' hne r hr
    have h1 : r.number = b'.number := beq_iff_eq.mp ((Bool.and_eq_true _ _).mp hr).1
    have h2 : (r.number == b.number) = false := by
      rw [h1]
      exact beq_eq_false_iff_ne.mpr (fun h => hne h.symm)
    simp [h2]
  · intro b; simp [chapterRowOf]
  · intro b; rfl
  · intro b r; rfl
  · exact hpair

/-- The section loop step is an instance of the keyed upsert shape. -/
theorem sectionStep_eq_keyedStep :
    sectionStep = keyedStep (fun s => s.number)
      (fun s r => r.number == s.number && r.part_id == none)
      (fun s r => sectionUpdate s r) (fun s => sectionRowOf s) := by
  funext l s
  unfold sectionStep keyedStep
  beta_reduce
  by_cases hs : s.number = ""
  · rw [if_pos hs, if_pos hs]
  · rw [if_neg hs, if_neg hs]
    cases hf : List.find? (fun r => r.number == s.number && r.part_id == none) l with
    | some t => rfl
    | none => rfl

/-- Replaying the section loop on its own output changes nothing when the
batch's nonempty section numbers are pairwise distinct. -/
theorem sectionStep_fold_idem (ss : List SectionInfo)
    (hpair : ss.Pairwise (fun a c => a.number = "" ∨ c.number = "" ∨ ¬ a.number = c.number))
    (l : List SectionRow) :
    ss.foldl sectionStep (ss.foldl sectionStep l) = ss.foldl sectionStep l := by
  rw [sectionStep_eq_keyedStep]
  refine keyedFold_idem _ _ _ _ ?_ ?_ ?_ ?_ ?_ ss ?_ l
  · intro b b' r; rfl
  · intro b b' hne r hr
    have h1 : r.number = b'.number := beq_iff_eq.mp ((Bool.and_eq_true _ _).mp hr).1
    have h2 : (r.number == b.number) = false := by
      rw [h1]
      exact beq_eq_false_iff_ne.mpr (fun h => hne h.symm)
    simp [h2]
  · intro b; simp [sectionRowOf]
  · intro b; rfl
  · intro b r; rfl
  · exact hpair

/-- The title upsert leaves a first match for the unit's number that the
update branch fixes and whose id is the returned id; the other tables are
untouched. -/
theorem upsertTitle_post (td : TitleData) (db : Db) :
    ∃ t, ((upsertTitle td db).2).titles.find? (fun r => r.number == td.number) = some t ∧
      titleUpdate td t = t ∧ t.id = (upsertTitle td db).1 ∧
      ((upsertTitle td db).2).metricsRows = db.metricsRows ∧
      ((upsertTitle td db).2).chapters = db.chapters ∧
      ((upsertTitle td db).2).sections = db.sections := by
  unfold upsertTitle
  cases hf : db.titles.find? (fun r => r.number == td.number) with
  | some t0 =>
    refine ⟨titleUpdate td t0, ?_, rfl, rfl, rfl, rfl, rfl⟩
    show (updateFirst (fun r => r.number == td.number) (titleUpdate td) db.titles).find?
        (fun r => r.number == td.number) = some (titleUpdate td t0)
    have hp0 := List.find?_some hf
    exact find?_updateFirst_self _ _ _ _ hf hp0
  | none =>
    refine ⟨titleRowOf db.nextId td, ?_, rfl, rfl, rfl, rfl, rfl⟩
    show (db.titles ++ [titleRowOf db.nextId td]).find? (fun r => r.number == td.number)
        = some (titleRowOf db.nextId td)
    rw [find?_append_of_none _ _ _ hf, List.find?_cons_of_pos _ (by simp [titleRowOf])]

/-- When the unit's row is already present with its target field values,
the title upsert is a pure read. -/
theorem upsertTitle_stable (td : TitleData) (db : Db) (t : TitleRow)
    (hf : db.titles.find? (fun r => r.number == td.number) = some t)
    (hfix : titleUpdate td t = t) :
    upsertTitle td db = (t.id, db) := by
  unfold upsertTitle
  rw [hf]
  have hupd : updateFirst (fun r => r.number == td.number) (titleUpdate td) db.titles
      = db.titles := updateFirst_of_fix _ _ _ _ hf hfix
  simp only [hupd]

/-- `process_agencies` in closed form: a no-op on an all-empty name list,
an aborted store otherwise. -/
theorem process_agencies_eq (names : List String) (db : Db) :
    process_agencies names db = if names.all (fun a => a == "") then some db else none := by
  induction names with
  | nil => rfl
  | cons a rest ih =>
    by_cases ha : a = ""
    · simp [process_agencies, ha, ih, List.all_cons]
    · simp [process_agencies, ha, List.all_cons]

/-- The store stage in terms of its per-table passes. -/
theorem store_eq (td : TitleData) (db : Db) :
    store_title_data td db =
      match process_agencies td.agencies (upsertTitle td db).2 with
      | none => (none, (upsertTitle td db).2)
      | some db2 =>
        (some td,
         process_sections td.sections
           (process_chapters (upsertTitle td db).1 td.chapters
             (process_metrics (upsertTitle td db).1 td.metrics db2))) := by
  unfold store_title_data
  rfl

/-- The store on a unit with no recorded agency names runs to completion:
one appended metrics row, the chapter and section folds, and the upsert's
other tables. -/
theorem store_agencies_clean (td : TitleData) (db : Db)
    (hag : td.agencies.all (fun a => a == "") = true) :
    store_title_data td db =
      (some td,
       { nextId := ((upsertTitle td db).2).nextId,
         titles := ((upsertTitle td db).2).titles,
         metricsRows := ((upsertTitle td db).2).metricsRows ++
           [{ title_id := (upsertTitle td db).1,
              word_count := td.metrics.word_count,
              section_count := td.metrics.section_count,
              paragraph_count := td.metrics.paragraph_count }],
         chapters := td.chapters.foldl (chapterStep (upsertTitle td db).1)
           ((upsertTitle td db).2).chapters,
         sections := td.sections.foldl sectionStep ((upsertTitle td db).2).sections }) := by
  rw [store_eq, process_agencies_eq, if_pos hag]
  rfl

/-- The store on a unit with a nonempty agency name aborts after the
title commit. -/
theorem store_agencies_dirty (td : TitleData) (db : Db)
    (hag : td.agencies.all (fun a => a == "") = false) :
    store_title_data td db = (none, (upsertTitle td db).2) := by
  rw [store_eq, process_agencies_eq, if_neg (by simp [hag])]

/-- Counterexample to C3 as stated: storing the concrete unit-7 fixture
twice from the empty database does NOT leave the database identical to
storing it once — the second call appends a second copy of the metrics
row (bulk_to_db.py lines 165-175 always insert, never upsert). -/
theorem store_twice_not_idempotent :
    (store_title_data tdSample ((store_title_data tdSample emptyDb).2)).2
      ≠ (store_title_data tdSample emptyDb).2 ∧
    (((store_title_data tdSample ((store_title_data tdSample emptyDb).2)).2).metricsRows).length
      = 2 ∧
    (((store_title_data tdSample emptyDb).2).metricsRows).length = 1 := by
  exact ⟨by decide, by decide, by decide⟩

/-- Claim C3 (amended): storing the same parsed unit a second time leaves
the title, chapter and section tables and the id counter exactly as the
first store left them (assuming the unit's nonempty chapter numbers and
nonempty section numbers are each pairwise distinct); the calls return
the same outcome; and either the store aborts (nonempty agency name) and
the second call changes nothing at all, or it succeeds and each call
appends one more copy of the same metrics row — so the store is NOT
idempotent on the metrics table, and only there. -/
theorem store_second_call_appends_only_metrics (td : TitleData) (db : Db)
    (hch : td.chapters.Pairwise
      (fun a c => a.number = "" ∨ c.number = "" ∨ a.number ≠ c.number))
    (hsec : td.sections.Pairwise
      (fun a c => a.number = "" ∨ c.number = "" ∨ a.number ≠ c.number)) :
    (store_title_data td (store_title_data td db).2).1 = (store_title_data td db).1 ∧
    ((store_title_data td (store_title_data td db).2).2).nextId
      = ((store_title_data td db).2).nextId ∧
    ((store_title_data td (store_title_data td db).2).2).titles
      = ((store_title_data td db).2).titles ∧
    ((store_title_data td (store_title_data td db).2).2).chapters
      = ((store_title_data td db).2).chapters ∧
    ((store_title_data td (store_title_data td db).2).2).sections
      = ((store_title_data td db).2).sections ∧
    (((store_title_data td db).1 = none ∧
        (store_title_data td (store_title_data td db).2).2 = (store_title_data td db).2) ∨
      ∃ row, (store_title_data td db).1 = some td ∧
        ((store_title_data td db).2).metricsRows = db.metricsRows ++ [row] ∧
        ((store_title_data td (store_title_data td db).2).2).metricsRows
          = ((store_title_data td db).2).metricsRows ++ [row]) := by
  obtain ⟨t, hft, hfixt, hid, hm, hc, hs⟩ := upsertTitle_post td db
  cases hag : td.agencies.all (fun a => a == "") with
  | false =>
    have h1 := store_agencies_dirty td db hag
    have hstab : upsertTitle td (upsertTitle td db).2 = (t.id, (upsertTitle td db).2) :=
      upsertTitle_stable td _ t hft hfixt
    have h2 := store_agencies_dirty td (upsertTitle td db).2 hag
    rw [hstab] at h2
    dsimp only at h2
    rw [h1]
    dsimp only
    rw [h2]
    exact ⟨rfl, rfl, rfl, rfl, rfl, Or.inl ⟨rfl, rfl⟩⟩
  | true =>
    have h1 := store_agencies_clean td db hag
    have hstab : upsertTitle td (store_title_data td db).2
        = (t.id, (store_title_data td db).2) := by
      refine upsertTitle_stable td _ t ?_ hfixt
      rw [h1]
      exact hft
    have h2 := store_agencies_clean td (store_title_data td db).2 hag
    rw [hstab] at h2
    dsimp only at h2
    rw [h2, h1]
    dsimp only
    refine ⟨rfl, rfl, rfl, ?_, ?_,
      Or.inr ⟨{ title_id := (upsertTitle td db).1,
                word_count := td.metrics.word_count,
                section_count := td.metrics.section_count,
                paragraph_count := td.metrics.paragraph_count }, rfl, ?_, ?_⟩⟩
    · rw [← hid]
      exact chapterStep_fold_idem t.id td.chapters hch _
    · exact sectionStep_fold_idem td.sections hsec _
    · rw [hm]
    · rw [hid]

/-- Witness for C3 (amended): the double store of the concrete unit-7
fixture from the empty database. -/
theorem store_second_call_witness :
    (store_title_data tdSample (store_title_data tdSample emptyDb).2).1
      = (store_title_data tdSample emptyDb).1 ∧
    ((store_title_data tdSample (store_title_data tdSample emptyDb).2).2).titles
      = ((store_title_data tdSample emptyDb).2).titles ∧
    ((store_title_data tdSample (store_title_data tdSample emptyDb).2).2).chapters
      = ((store_title_data tdSample emptyDb).2).chapters := by
  have h := store_second_call_appends_only_metrics tdSample emptyDb (by decide) (by decide)
  exact ⟨h.1, h.2.2.1, h.2.2.2.1⟩

end ECFR
